import Mathlib

/-!
# Verification of the GeoJSON → WKT converter module

Shallow embedding of the converter family in
`src/notebooks/search_slc_grd_raw.py`:

* `geojson_to_polygon_wkt`   (spec name: `geometry_to_polygon_wkt`)
* `geojson_to_shrunk_polygon_wkt` (spec name: `geometry_to_shrunk_polygon_wkt`)
and their helpers `_is_3d_coords`, `_fmt_num`, `_fmt_coord`, `_fmt_ring`,
`_fmt_coord_list`, `_outer_ring_centroid_xy`, `_scale_ring_about_xy_centroid`,
`_shrink_polygon_rings`.

Modelling conventions:

* Python numbers are modelled exactly: `int` by `ℤ`, `float` by an exact
  fraction.  IEEE-754 rounding of individual float operations is not modelled
  (arithmetic is exact); this is the single global idealisation.  In
  particular the literal `1e-15` is modelled as the exact rational 10⁻¹⁵ and
  `f"{x:.15g}"` as correctly-rounded (round-half-even) decimal formatting of
  the exact value with 15 significant digits, which is what CPython produces
  for the stored binary value.
* Because `Rat` arithmetic does not reduce in the kernel (gcd), internal
  float arithmetic uses `Frac`, an unnormalised fraction on `ℤ` whose
  operations never normalise.  `Frac.toRat` relates it to `ℚ` and all
  operations are proved to commute with `toRat` (for positive denominators,
  which all reachable values have).
* Python's dynamically typed values (numbers, lists, `None`) are the type
  `PyVal`; lists are a mutually inductive `PyList` so that all recursions are
  structural and kernel-reducible.  String leaves cannot occur inside a
  geometry's `coordinates` in the GeoJSON data model (§3 of the spec), so
  they are not part of `PyVal`; the `type` tag is kept separately as a
  `String`.
* Every `raise ValueError(msg)` site is mapped to a typed error carrying the
  exact source message, classified per §7 of the spec:
  `invalidArgument` for the `shrink_factor` check, `invalidGeometry` for the
  structural checks.  Python `TypeError` / `IndexError` crash sites (which
  are *not* `ValueError`) are modelled by the distinct constructors
  `typeError` / `indexError`.
-/

/-! ## Exact unnormalised fractions (the model of Python float values) -/

/-- An unnormalised fraction `num / den`.  All fractions produced by the
embedded code have `0 < den`; operations do not reduce to lowest terms, so
every operation is kernel-computable. -/
structure Frac where
  num : ℤ
  den : ℤ
  deriving DecidableEq, Repr

def Frac.ofInt (n : ℤ) : Frac := ⟨n, 1⟩

def Frac.ofRat (q : ℚ) : Frac := ⟨q.num, (q.den : ℤ)⟩

def Frac.add (a b : Frac) : Frac := ⟨a.num * b.den + b.num * a.den, a.den * b.den⟩

def Frac.sub (a b : Frac) : Frac := ⟨a.num * b.den - b.num * a.den, a.den * b.den⟩

def Frac.mul (a b : Frac) : Frac := ⟨a.num * b.num, a.den * b.den⟩

/-- Division; the sign is moved into the numerator so the denominator stays
positive (for a nonzero divisor). -/
def Frac.div (a b : Frac) : Frac :=
  if 0 ≤ b.num then ⟨a.num * b.den, a.den * b.num⟩
  else ⟨-(a.num * b.den), -(a.den * b.num)⟩

/-- `|·|` on the numerator (denominators are positive). -/
def Frac.fabs (a : Frac) : Frac := ⟨if a.num < 0 then -a.num else a.num, a.den⟩

/-- Strict order, valid for positive denominators. -/
def Frac.blt (a b : Frac) : Bool := a.num * b.den < b.num * a.den

def Frac.toRat (a : Frac) : ℚ := (a.num : ℚ) / (a.den : ℚ)

/-- A fraction in the image of the embedding: positive denominator. -/
def Frac.Pos (a : Frac) : Prop := 0 < a.den

instance (a : Frac) : Decidable a.Pos := by unfold Frac.Pos; infer_instance

/-! ## Python values -/

/-- A Python number: `int` or `float` (float values modelled exactly). -/
inductive PyNum where
  | int : ℤ → PyNum
  | float : Frac → PyNum
  deriving DecidableEq, Repr

/-- The mathematical value of a number (used in specification statements). -/
def PyNum.toQ : PyNum → ℚ
  | .int n => (n : ℚ)
  | .float f => f.toRat

/-- The value as an internal fraction (used by the embedded arithmetic,
mirroring Python's implicit int→float coercion in mixed arithmetic). -/
def PyNum.toFrac : PyNum → Frac
  | .int n => Frac.ofInt n
  | .float f => f

/-- A float value stored by the program always has a positive denominator. -/
def PyNum.WF : PyNum → Prop
  | .int _ => True
  | .float f => f.Pos

instance (n : PyNum) : Decidable n.WF := by cases n <;> unfold PyNum.WF <;> infer_instance

mutual

/-- A dynamically-typed Python value as it can occur inside a geometry:
a number, a list, or `None` (the result of a missing `dict.get`). -/
inductive PyVal where
  | num : PyNum → PyVal
  | list : PyList → PyVal
  | pynone : PyVal
  deriving DecidableEq, Repr

/-- A Python list of such values (mutually inductive so that all recursive
functions below are structural and kernel-computable). -/
inductive PyList where
  | nil : PyList
  | cons : PyVal → PyList → PyList
  deriving DecidableEq, Repr
end

def PyList.ofList : List PyVal → PyList
  | [] => .nil
  | v :: l => .cons v (PyList.ofList l)

def PyList.toList : PyList → List PyVal
  | .nil => []
  | .cons v l => v :: l.toList

/-- Shorthand for embedding a Lean list as a Python list value. -/
def pv (l : List PyVal) : PyVal := .list (.ofList l)

def PyList.length : PyList → Nat
  | .nil => 0
  | .cons _ l => l.length + 1

/-- `isinstance(v, (int, float))` -/
def PyVal.isNum : PyVal → Bool
  | .num _ => true
  | _ => false

mutual

/-- Python truthiness (`bool(v)`) for the values of our universe. -/
def PyVal.truthy : PyVal → Bool
  | .num (.int n) => n ≠ 0
  | .num (.float f) => f.num ≠ 0
  | .list l => l.truthyList
  | .pynone => false

def PyList.truthyList : PyList → Bool
  | .nil => false
  | .cons _ _ => true
end

mutual

/-- The `_walk` recursion of `_is_3d_coords`: `found` becomes true iff some
(nonempty, all-numeric) coordinate list encountered has ≥ 3 elements. -/
def PyVal.is3d : PyVal → Bool
  | .num _ => false
  | .pynone => false
  | .list l =>
      if l.truthyList && l.allNum then decide (3 ≤ l.length)
      else l.anyIs3d

def PyList.allNum : PyList → Bool
  | .nil => true
  | .cons v l => v.isNum && l.allNum

def PyList.anyIs3d : PyList → Bool
  | .nil => false
  | .cons v l => v.is3d || l.anyIs3d
end

/-- `_is_3d_coords(obj)` (defined identically inside both converters). -/
def _is_3d_coords (obj : PyVal) : Bool := obj.is3d

mutual

/-- Python `==` on our value universe: numbers compare by mathematical value
(`1 == 1.0` is `True`), lists elementwise, `None` only to itself, and values
of different kinds are unequal. -/
def pyEq : PyVal → PyVal → Bool
  | .num a, .num b => a.toFrac.num * b.toFrac.den = b.toFrac.num * a.toFrac.den
  | .list a, .list b => pyEqList a b
  | .pynone, .pynone => true
  | _, _ => false

def pyEqList : PyList → PyList → Bool
  | .nil, .nil => true
  | .cons a l, .cons b m => pyEq a b && pyEqList l m
  | _, _ => false
end

/-! ## Errors

Each `raise` site of the source is mapped to a constructor carrying the
exact message.  `ValueError` sites are classified per §7 of the spec into
`invalidGeometry` / `invalidArgument`; un-caught Python `TypeError` /
`IndexError` crash sites are kept distinct (they are *neither* of the spec's
error kinds). -/

inductive GeoError where
  | invalidGeometry : String → GeoError
  | invalidArgument : String → GeoError
  | typeError : String → GeoError
  | indexError : String → GeoError
  deriving DecidableEq, Repr

/-- Left-to-right effectful map, mirroring a Python `for` loop (or a
generator consumed by `join`) that stops at the first raised exception. -/
def mapE {α β : Type} (f : α → Except GeoError β) : List α → Except GeoError (List β)
  | [] => .ok []
  | a :: l =>
    match f a with
    | .error e => .error e
    | .ok b =>
      match mapE f l with
      | .error e => .error e
      | .ok bs => .ok (b :: bs)

/-! ## Number formatting: `_fmt_num`

`str(n)` for ints; `f"{float(n):.15g}"` for floats, modelled as the
correctly-rounded (round-half-even) 15-significant-digit `%g` rendering of
the exact value. -/

/-- Number of decimal digits of a natural number (1 for 0). -/
def digitCount (n : Nat) : Nat := (Nat.repr n).length

/-- Smallest `k ≥ 1` with `d ≤ m * 10^k`, by repeated multiplication.  The
fuel `digitCount d` always suffices when `1 ≤ m`. -/
def negExpAux (d : Nat) : Nat → Nat → Nat
  | _, 0 => 1
  | m, fuel + 1 => if d ≤ m * 10 then 1 else negExpAux d (m * 10) fuel + 1

/-- Decimal (scientific) exponent of the positive value `n / d`: the unique
`e` with `10^e ≤ n/d < 10^(e+1)`. -/
def decExp (n d : Nat) : Int :=
  if d ≤ n then Int.ofNat (digitCount (n / d) - 1)
  else -(Int.ofNat (negExpAux d n (digitCount d)))

/-- Round `n / d` to the nearest integer, ties to even. -/
def natRoundHalfEven (n d : Nat) : Nat :=
  let q := n / d
  let r := n % d
  if 2 * r < d then q
  else if d < 2 * r then q + 1
  else if q % 2 = 0 then q else q + 1

/-- Drop trailing `'0'` characters. -/
def stripZeros (s : List Char) : List Char :=
  (s.reverse.dropWhile (fun c => c = '0')).reverse

/-- Exponent field of `%g`: at least two digits. -/
def padExp (e : Nat) : String := if e < 10 then "0" ++ Nat.repr e else Nat.repr e

/-- `%.15g` of the positive value `n / d` (`1 ≤ n`, `1 ≤ d`). -/
def fmtG15Pos (n d : Nat) : String :=
  let e0 : Int := decExp n d
  let t : Int := 14 - e0
  let n' := n * 10 ^ t.toNat
  let d' := d * 10 ^ (-t).toNat
  let N0 := natRoundHalfEven n' d'
  -- rounding can overflow the 15-digit mantissa to 10^15
  let N := if N0 = 10 ^ 15 then 10 ^ 14 else N0
  let e : Int := if N0 = 10 ^ 15 then e0 + 1 else e0
  let ds := (Nat.repr N).data
  if e < -4 || 15 ≤ e then
    let m := stripZeros ds
    let mant :=
      match m with
      | [] => "0"
      | c :: rest =>
        String.mk [c] ++ (if rest.isEmpty then "" else "." ++ String.mk rest)
    mant ++ "e" ++ (if e < 0 then "-" else "+") ++ padExp e.natAbs
  else if 0 ≤ e then
    let k := e.toNat + 1
    let ip := String.mk (ds.take k)
    let fp := stripZeros (ds.drop k)
    ip ++ (if fp.isEmpty then "" else "." ++ String.mk fp)
  else
    "0." ++ String.mk (List.replicate (e.natAbs - 1) '0') ++ String.mk (stripZeros ds)

/-- `f"{x:.15g}"` for a float value. -/
def fmtG15 (f : Frac) : String :=
  if f.num = 0 then "0"
  else (if f.num < 0 then "-" else "") ++ fmtG15Pos f.num.natAbs f.den.natAbs

/-- `_fmt_num(n)` (defined identically inside both converters). -/
def _fmt_num : PyNum → String
  | .int n => toString n
  | .float f => fmtG15 f

/-! ## WKT serialization helpers (duck-typed, as in the source) -/

/-- `_fmt_num(c)` on an arbitrary value; `float()` of a list or `None`
raises `TypeError`. -/
def fmtNumV : PyVal → Except GeoError String
  | .num n => .ok (_fmt_num n)
  | _ => .error (.typeError "float() argument must be a number")

/-- `_fmt_coord(coord)`: `" ".join(_fmt_num(c) for c in coord[:3])`;
slicing a non-list raises `TypeError`. -/
def _fmt_coord (coord : PyVal) : Except GeoError String :=
  match coord with
  | .list l =>
    match mapE fmtNumV (l.toList.take 3) with
    | .error e => .error e
    | .ok parts => .ok (String.intercalate " " parts)
  | _ => .error (.typeError "value is not subscriptable")

/-- `_fmt_coord_list(coords)`: `", ".join(_fmt_coord(c) for c in coords)`;
iterating a non-list raises `TypeError`. -/
def _fmt_coord_list (coords : PyVal) : Except GeoError String :=
  match coords with
  | .list l =>
    match mapE _fmt_coord l.toList with
    | .error e => .error e
    | .ok parts => .ok (String.intercalate ", " parts)
  | _ => .error (.typeError "value is not iterable")

/-- `_fmt_ring(ring)`. -/
def _fmt_ring (ring : PyVal) : Except GeoError String :=
  match _fmt_coord_list ring with
  | .error e => .error e
  | .ok s => .ok ("(" ++ s ++ ")")

/-! ## Geometry dictionaries and `geojson_to_polygon_wkt` -/

/-- A GeoJSON-like geometry dictionary: its `"type"` entry (a string, or
absent) and its `"coordinates"` entry (`dict.get` of an absent key gives
`None`, i.e. `PyVal.pynone`). -/
structure Geometry where
  gtype : Option String
  coordinates : PyVal

/-- `geojson_to_polygon_wkt(geometry, on_multipolygon=...)`; the spec calls
this operation `geometry_to_polygon_wkt`.  (The Python default for
`on_multipolygon` is `"first"`; callers here always pass it explicitly.) -/
def geojson_to_polygon_wkt (geometry : Geometry) (on_multipolygon : String) :
    Except GeoError String :=
  match geometry.gtype with
  | Option.none => .error (.invalidGeometry "Geometry missing 'type'")
  | some gtype =>
    if gtype = "" then .error (.invalidGeometry "Geometry missing 'type'")
    else if gtype = "Polygon" then
      match geometry.coordinates with
      | .list rings =>
        let dim := if _is_3d_coords (.list rings) then " Z" else ""
        match mapE _fmt_ring rings.toList with
        | .error e => .error e
        | .ok parts =>
          .ok ("POLYGON" ++ dim ++ " (" ++ String.intercalate ", " parts ++ ")")
      | _ => .error (.invalidGeometry "Polygon 'coordinates' must be a list of rings")
    else if gtype = "MultiPolygon" then
      match geometry.coordinates with
      | .list (.cons chosen polysRest) =>
        if on_multipolygon = "error" && (PyList.cons chosen polysRest).length ≠ 1 then
          .error (.invalidGeometry
            "MultiPolygon has multiple polygons; set on_multipolygon='first' to pick the first")
        else
          match chosen with
          | .list chosenRings =>
            let dim := if _is_3d_coords (.list chosenRings) then " Z" else ""
            match mapE _fmt_ring chosenRings.toList with
            | .error e => .error e
            | .ok parts =>
              .ok ("POLYGON" ++ dim ++ " (" ++ String.intercalate ", " parts ++ ")")
          | _ => .error (.invalidGeometry
              "Invalid MultiPolygon structure: expected list of polygons (list of rings)")
      | _ => .error (.invalidGeometry
          "MultiPolygon 'coordinates' must be a non-empty list of polygons")
    else .error (.invalidGeometry ("Unsupported geometry type for polygon output: " ++ gtype))

/-! ## The shrink transform — centroid, scaling, `_shrink_polygon_rings` -/

/-- Evaluate `p[i]`: `IndexError` out of range, `TypeError` on a non-list. -/
def pyGet (p : PyVal) (i : Nat) : Except GeoError PyVal :=
  match p with
  | .list l =>
    match l.toList[i]? with
    | some v => .ok v
    | Option.none => .error (.indexError "list index out of range")
  | _ => .error (.typeError "object is not subscriptable")

/-- Use a value as a number in arithmetic (`TypeError` otherwise; Python would
raise at the first arithmetic operation touching the value, so the precise
message of a `TypeError` is approximate, its kind is not). -/
def asNum (p : PyVal) : Except GeoError Frac :=
  match p with
  | .num n => .ok n.toFrac
  | _ => .error (.typeError "unsupported operand type")

/-- `0.5`, `6.0` and `1e-15` as float constants. -/
def fracHalf : Frac := ⟨1, 2⟩

def fracSix : Frac := ⟨6, 1⟩

def eps15 : Frac := ⟨1, 10 ^ 15⟩

/-- Body of the `for i in range(n - 1)` loop of `_outer_ring_centroid_xy`:
accumulates `(A, Cx, Cy)`. -/
def shoelaceStep (acc : Frac × Frac × Frac) (p : (Frac × Frac) × (Frac × Frac)) :
    Frac × Frac × Frac :=
  let x0 := p.1.1
  let y0 := p.1.2
  let x1 := p.2.1
  let y1 := p.2.2
  let cross := (x0.mul y1).sub (x1.mul y0)
  (acc.1.add cross,
   acc.2.1.add ((x0.add x1).mul cross),
   acc.2.2.add ((y0.add y1).mul cross))

/-- Python's `sum(...)` (initial value `0`). -/
def sumFrac (l : List Frac) : Frac := l.foldl Frac.add ⟨0, 1⟩

/-- `_outer_ring_centroid_xy(ring)`.  The `for i in range(n-1)` loop is
rendered as a fold over the consecutive pairs `zip ring (tail ring)`, which
are exactly the index pairs `(i, i+1)` for `i = 0 … n-2`. -/
def _outer_ring_centroid_xy (ring : List PyVal) : Except GeoError (Frac × Frac) :=
  if ring.length < 3 then
    -- degenerate; mean (`xs = [p[0] for p in pts] or [0.0]`)
    match mapE (fun p => pyGet p 0) ring with
    | .error e => .error e
    | .ok xsv =>
      match mapE (fun p => pyGet p 1) ring with
      | .error e => .error e
      | .ok ysv =>
        let xsv := if xsv.isEmpty then [PyVal.num (.float ⟨0, 1⟩)] else xsv
        let ysv := if ysv.isEmpty then [PyVal.num (.float ⟨0, 1⟩)] else ysv
        match mapE asNum xsv with
        | .error e => .error e
        | .ok xs =>
          match mapE asNum ysv with
          | .error e => .error e
          | .ok ys =>
            .ok ((sumFrac xs).div (Frac.ofInt xs.length),
                 (sumFrac ys).div (Frac.ofInt ys.length))
  else
    -- xys = [(p[0], p[1]) for p in pts]
    match mapE (fun p => do
        let x ← pyGet p 0
        let y ← pyGet p 1
        pure (x, y)) ring with
    | .error e => .error e
    | .ok xyv =>
      match mapE (fun xy => do
          let x ← asNum xy.1
          let y ← asNum xy.2
          pure (x, y)) xyv with
      | .error e => .error e
      | .ok xys =>
        let acc := (xys.zip xys.tail).foldl shoelaceStep (⟨0, 1⟩, ⟨0, 1⟩, ⟨0, 1⟩)
        let A := acc.1.mul fracHalf      -- A *= 0.5
        if A.fabs.blt eps15 then
          -- degenerate: arithmetic mean of the vertices
          let xs := xys.map Prod.fst
          let ys := xys.map Prod.snd
          .ok ((sumFrac xs).div (Frac.ofInt xs.length),
               (sumFrac ys).div (Frac.ofInt ys.length))
        else
          .ok (acc.2.1.div (fracSix.mul A), acc.2.2.div (fracSix.mul A))

/-- One iteration of the scaling loop of `_scale_ring_about_xy_centroid`. -/
def _scale_coord (cx cy s : Frac) (p : PyVal) : Except GeoError PyVal :=
  match p with
  | .list (.cons px (.cons py rest)) =>
    match asNum px with
    | .error e => .error e
    | .ok x =>
      match asNum py with
      | .error e => .error e
      | .ok y =>
        let xs := cx.add (s.mul (x.sub cx))
        let ys := cy.add (s.mul (y.sub cy))
        -- z = p[2] if len(p) >= 3 else None; if z is None: out.append([xs, ys])
        match rest with
        | .nil => .ok (pv [.num (.float xs), .num (.float ys)])
        | .cons .pynone _ => .ok (pv [.num (.float xs), .num (.float ys)])
        | .cons z _ => .ok (pv [.num (.float xs), .num (.float ys), z])
  | _ => .error (.invalidGeometry "Invalid coordinate; expected at least [x, y]")

/-- The closure test of `_scale_ring_about_xy_centroid`:
`len(first) >= 2 and len(last) >= 2 and first[0] == last[0] and
first[1] == last[1]`.  (`len()` of a non-list would raise `TypeError`, but
every element reaching this test has already been validated by the loop to
be a list of length ≥ 2.) -/
def closedXY (a b : PyVal) : Bool :=
  match a, b with
  | .list (.cons a0 (.cons a1 _)), .list (.cons b0 (.cons b1 _)) =>
    pyEq a0 b0 && pyEq a1 b1
  | _, _ => false

/-- `_scale_ring_about_xy_centroid(ring, cx, cy, s)`. -/
def _scale_ring_about_xy_centroid (ring : List PyVal) (cx cy s : Frac) :
    Except GeoError (List PyVal) :=
  match mapE (_scale_coord cx cy s) ring with
  | .error e => .error e
  | .ok out =>
    -- Preserve closure exactly if input was closed: out[-1] = out[0][:]
    if 2 ≤ ring.length then
      match ring.head?, ring.getLast?, out.head? with
      | some first_in, some last_in, some out0 =>
        if closedXY first_in last_in then .ok (out.set (out.length - 1) out0)
        else .ok out
      | _, _, _ => .ok out
    else .ok out

/-- `_shrink_polygon_rings(rings, factor)`. -/
def _shrink_polygon_rings (rings : PyVal) (factor : ℚ) : Except GeoError (List PyVal) :=
  -- `if not rings or not isinstance(rings, list)`
  match rings with
  | .list (.cons outerV restPL) =>
    if factor ≤ 0 then .error (.invalidArgument "shrink_factor must be > 0")
    else
      -- s = 1.0 / float(factor), inlined below at its single use site
      match outerV with
      | .list outerPL =>
        if outerPL.length < 3 then
          .error (.invalidGeometry "Outer ring must be a list of at least 3 coordinates")
        else
          match _outer_ring_centroid_xy outerPL.toList with
          | .error e => .error e
          | .ok (cx, cy) =>
            mapE (fun ringV =>
                match ringV with
                | PyVal.list ringPL =>
                  if ringPL.length < 3 then
                    Except.error (GeoError.invalidGeometry
                      "Each ring must be a list of at least 3 coordinates")
                  else
                    match _scale_ring_about_xy_centroid ringPL.toList cx cy
                        ((Frac.ofInt 1).div (Frac.ofRat factor)) with
                    | .error e => .error e
                    | .ok out => .ok (pv out)
                | _ => Except.error (GeoError.invalidGeometry
                    "Each ring must be a list of at least 3 coordinates"))
              (PyList.cons outerV restPL).toList
      | _ => .error (.invalidGeometry "Outer ring must be a list of at least 3 coordinates")
  | _ => .error (.invalidGeometry "Polygon 'coordinates' must be a non-empty list of rings")

/-- `geojson_to_shrunk_polygon_wkt(geometry, on_multipolygon=..., shrink_factor=...)`;
the spec calls this operation `geometry_to_shrunk_polygon_wkt`.  (Python
defaults: `on_multipolygon="first"`, `shrink_factor=20.0`; callers here
always pass both explicitly.) -/
def geojson_to_shrunk_polygon_wkt (geometry : Geometry) (on_multipolygon : String)
    (shrink_factor : ℚ) : Except GeoError String :=
  match geometry.gtype with
  | Option.none => .error (.invalidGeometry "Geometry missing 'type'")
  | some gtype =>
    if gtype = "" then .error (.invalidGeometry "Geometry missing 'type'")
    else if gtype = "Polygon" then
      match _shrink_polygon_rings geometry.coordinates shrink_factor with
      | .error e => .error e
      | .ok shrunk =>
        let dim := if _is_3d_coords (pv shrunk) then " Z" else ""
        match mapE _fmt_ring shrunk with
        | .error e => .error e
        | .ok parts =>
          .ok ("POLYGON" ++ dim ++ " (" ++ String.intercalate ", " parts ++ ")")
    else if gtype = "MultiPolygon" then
      match geometry.coordinates with
      | .list (.cons chosen polysRest) =>
        if on_multipolygon = "error" && (PyList.cons chosen polysRest).length ≠ 1 then
          .error (.invalidGeometry
            "MultiPolygon has multiple polygons; set on_multipolygon='first' to pick the first")
        else
          match chosen with
          | .list _ =>
            match _shrink_polygon_rings chosen shrink_factor with
            | .error e => .error e
            | .ok shrunk =>
              let dim := if _is_3d_coords (pv shrunk) then " Z" else ""
              match mapE _fmt_ring shrunk with
              | .error e => .error e
              | .ok parts =>
                .ok ("POLYGON" ++ dim ++ " (" ++ String.intercalate ", " parts ++ ")")
          | _ => .error (.invalidGeometry
              "Invalid MultiPolygon structure: expected list of polygons (list of rings)")
      | _ => .error (.invalidGeometry
          "MultiPolygon 'coordinates' must be a non-empty list of polygons")
    else .error (.invalidGeometry ("Unsupported geometry type for polygon output: " ++ gtype))

/-! ## Specification-side definitions

The definitions below are written from the *spec's words* (not from the
code); the claim theorems compare the embedded code against them. -/

/-- A numeric coordinate record as the spec's data model describes it:
an `x` and a `y` component plus the remaining components (`z` first). -/
structure Coord where
  x : PyNum
  y : PyNum
  rest : List PyVal

def Coord.toPyVal (c : Coord) : PyVal := pv (.num c.x :: .num c.y :: c.rest)

/-- The mathematical X value of a coordinate. -/
def Coord.xq (c : Coord) : ℚ := c.x.toQ

/-- The mathematical Y value of a coordinate. -/
def Coord.yq (c : Coord) : ℚ := c.y.toQ

def Coord.WF (c : Coord) : Prop := c.x.WF ∧ c.y.WF

def cDefault : Coord := ⟨.int 0, .int 0, []⟩

instance (c : Coord) : Decidable c.WF := by unfold Coord.WF; infer_instance

/-- A ring of numeric coordinates, embedded as the Python value the
converters receive. -/
def embedRing (r : List Coord) : PyVal := pv (r.map Coord.toPyVal)

/-- A polygon (list of rings), embedded. -/
def embedRings (R : List (List Coord)) : PyVal := pv (R.map embedRing)

/-- A coordinate that is an arbitrary-length list of numbers, embedded. -/
def embedNumCoord (c : List PyNum) : PyVal := pv (c.map PyVal.num)

def embedNumRing (r : List (List PyNum)) : PyVal := pv (r.map embedNumCoord)

def embedNumRings (R : List (List (List PyNum))) : PyVal :=
  pv (R.map embedNumRing)

/-- Spec §4.1 step 3: the signed area `A` by the shoelace formula "over
consecutive coordinate pairs `(i, i+1)` for `i` from 0 to `n-2`" — written
as an indexed sum with *no* synthetic wrap-around edge. -/
def shoelaceA (r : List Coord) : ℚ :=
  (∑ i in Finset.range (r.length - 1),
    ((r.getD i cDefault).xq * (r.getD (i + 1) cDefault).yq
      - (r.getD (i + 1) cDefault).xq * (r.getD i cDefault).yq)) / 2

/-- Spec §4.1 step 3: the (un-normalised) X-moment of the shoelace centroid
formula, `Σ (xᵢ + xᵢ₊₁)·crossᵢ` for `i` from 0 to `n-2`. -/
def shoelaceSx (r : List Coord) : ℚ :=
  ∑ i in Finset.range (r.length - 1),
    ((r.getD i cDefault).xq + (r.getD (i + 1) cDefault).xq)
      * ((r.getD i cDefault).xq * (r.getD (i + 1) cDefault).yq
        - (r.getD (i + 1) cDefault).xq * (r.getD i cDefault).yq)

/-- Spec §4.1 step 3: the Y-moment, `Σ (yᵢ + yᵢ₊₁)·crossᵢ`. -/
def shoelaceSy (r : List Coord) : ℚ :=
  ∑ i in Finset.range (r.length - 1),
    ((r.getD i cDefault).yq + (r.getD (i + 1) cDefault).yq)
      * ((r.getD i cDefault).xq * (r.getD (i + 1) cDefault).yq
        - (r.getD (i + 1) cDefault).xq * (r.getD i cDefault).yq)

/-- Arithmetic mean of the X coordinates of a ring (degenerate fallback). -/
def meanX (r : List Coord) : ℚ := (r.map Coord.xq).sum / (r.length : ℚ)

/-- Arithmetic mean of the Y coordinates of a ring. -/
def meanY (r : List Coord) : ℚ := (r.map Coord.yq).sum / (r.length : ℚ)

/-- Spec §4.1 step 3 in full: the centroid the spec prescribes for an outer
ring — shoelace with the `|A| < 1e-15` arithmetic-mean fallback. -/
def specCentroid (r : List Coord) : ℚ × ℚ :=
  if |shoelaceA r| < 1 / 10 ^ 15 then (meanX r, meanY r)
  else (shoelaceSx r / (6 * shoelaceA r), shoelaceSy r / (6 * shoelaceA r))

/-- Spec §4.1 step 4: the prescribed image of one coordinate under the
shrink map — X and Y scaled about `(cx, cy)` by `s`, a third (Z) component
passed through unchanged (components beyond the third are dropped).  The
resulting X' and Y' are float values; the statement quantifies over their
representation and pins down their mathematical value via `Frac.toRat`. -/
def specScaledVals (cx cy s : ℚ) (c : Coord) : ℚ × ℚ :=
  (cx + s * (c.xq - cx), cy + s * (c.yq - cy))

/-- Direct, in-order WKT body of a coordinate given as numbers (first three
components, space-separated). -/
def coordWkt (c : List PyNum) : String :=
  String.intercalate " " ((c.take 3).map _fmt_num)

/-- Direct, in-order WKT body of a ring (coordinates joined by `", "`,
parenthesised) — no reordering, closing or reversal. -/
def ringWkt (r : List (List PyNum)) : String :=
  "(" ++ String.intercalate ", " (r.map coordWkt) ++ ")"

/-- The rings `geojson_to_polygon_wkt` serializes for a given geometry:
the Polygon's own `coordinates`, or a MultiPolygon's first part. -/
def chosenRings (g : Geometry) : Option PyVal :=
  match g.gtype with
  | some "Polygon" => some g.coordinates
  | some "MultiPolygon" =>
    match g.coordinates with
    | .list (.cons chosen _) => some chosen
    | _ => Option.none
  | _ => Option.none

/-- The rings `geojson_to_shrunk_polygon_wkt` serializes (the shrunk rings
of the chosen polygon part). -/
def shrunkSerializedRings (g : Geometry) (f : ℚ) : Option (List PyVal) :=
  match chosenRings g with
  | some rings => (_shrink_polygon_rings rings f).toOption
  | Option.none => Option.none

/-- The cross, X-moment and Y-moment contributions (in ℚ) of one pair. -/
def crossQ (p : (Frac × Frac) × (Frac × Frac)) : ℚ :=
  p.1.1.toRat * p.2.2.toRat - p.2.1.toRat * p.1.2.toRat

def cxQ (p : (Frac × Frac) × (Frac × Frac)) : ℚ :=
  (p.1.1.toRat + p.2.1.toRat) * crossQ p

def cyQ (p : (Frac × Frac) × (Frac × Frac)) : ℚ :=
  (p.1.2.toRat + p.2.2.toRat) * crossQ p

def PairsPos (p : (Frac × Frac) × (Frac × Frac)) : Prop :=
  p.1.1.Pos ∧ p.1.2.Pos ∧ p.2.1.Pos ∧ p.2.2.Pos

/-- Failure kinds other than `InvalidArgument` (spec §7): holds of a result
that is not an `invalidArgument` error. -/
def NotIA {α : Type} (r : Except GeoError α) : Prop :=
  ∀ m, r ≠ .error (.invalidArgument m)

/-- A structurally valid coordinate: a list starting with two numbers. -/
def ValidCoordV (p : PyVal) : Prop :=
  ∃ x y rest, p = pv (PyVal.num x :: PyVal.num y :: rest) ∧ x.WF ∧ y.WF

/-- A structurally valid ring: a list of ≥ 3 valid coordinates. -/
def ValidRingV (r : PyVal) : Prop :=
  ∃ cl : List PyVal, r = pv cl ∧ 3 ≤ cl.length ∧ ∀ p ∈ cl, ValidCoordV p

/-- A structurally valid Polygon geometry (spec §3/§4.1). -/
def StructValidPolygon (g : Geometry) : Prop :=
  g.gtype = some "Polygon" ∧
    ∃ rl : List PyVal, g.coordinates = pv rl ∧ rl ≠ [] ∧ ∀ r ∈ rl, ValidRingV r

/-- Seam compatibility of a ring: when its first and last coordinates have
equal X and Y values, they carry the same third component (if any).  Rings
that are closed in the ordinary sense (first coordinate equal to the last)
always satisfy this. -/
def SeamOK (r : List Coord) : Prop :=
  ∀ c0 cn, r.head? = some c0 → r.getLast? = some cn →
    c0.xq = cn.xq → c0.yq = cn.yq → c0.rest.head? = cn.rest.head?

/-- The shape of a scaled coordinate: `[x', y']`, or `[x', y', z]` with the
third input component `z` passed through unchanged (components beyond the
third are dropped, and a third component that is literally `None` is dropped
as well, as the code's `if z is None` branch does). -/
def scaledShape (c : Coord) (xs ys : Frac) : PyVal :=
  match c.rest with
  | [] => pv [.num (.float xs), .num (.float ys)]
  | PyVal.pynone :: _ => pv [.num (.float xs), .num (.float ys)]
  | z :: _ => pv [.num (.float xs), .num (.float ys), z]

/-! ## Concrete inputs used by witnesses and counterexamples -/

/-- The outer ring of the spec's concrete scenario (§8):
`[[0,0],[4,0],[4,4],[0,4],[0,0]]`. -/
def ringC1 : List PyVal :=
  [pv [.num (.int 0), .num (.int 0)],
   pv [.num (.int 4), .num (.int 0)],
   pv [.num (.int 4), .num (.int 4)],
   pv [.num (.int 0), .num (.int 4)],
   pv [.num (.int 0), .num (.int 0)]]

def geomC1 : Geometry := ⟨some "Polygon", pv [pv ringC1]⟩

/-- The same square as typed coordinate records. -/
def coordsC1 : List Coord :=
  [⟨.int 0, .int 0, []⟩, ⟨.int 4, .int 0, []⟩, ⟨.int 4, .int 4, []⟩,
   ⟨.int 0, .int 4, []⟩, ⟨.int 0, .int 0, []⟩]

/-- The square, closed in XY but with differing Z on the seam (first vertex
`[0,0,5]`, last vertex `[0,0,7]`). -/
def ringZ57 : List PyVal :=
  [pv [.num (.int 0), .num (.int 0), .num (.int 5)],
   pv [.num (.int 4), .num (.int 0)],
   pv [.num (.int 4), .num (.int 4)],
   pv [.num (.int 0), .num (.int 4)],
   pv [.num (.int 0), .num (.int 0), .num (.int 7)]]

/-- The last input coordinate of `ringZ57`, as a coordinate record. -/
def coordZ7 : Coord := ⟨.int 0, .int 0, [.num (.int 7)]⟩

/-- A polygon whose outer ring has 3 coordinates but whose coordinates have
only one component each. -/
def geomShortCoord : Geometry :=
  ⟨some "Polygon", pv [pv [pv [.num (.int 0)], pv [.num (.int 1)], pv [.num (.int 2)]]]⟩

/-- A MultiPolygon with two parts (each the C1 square). -/
def geomMP2 : Geometry :=
  ⟨some "MultiPolygon", pv [pv [pv ringC1], pv [pv ringC1]]⟩

/-- The shrunk ring the code produces for `ringZ57` with factor 2 (the last
coordinate is a copy of the first, carrying `z = 5`). -/
def ringZ57shrunk : List PyVal :=
  [pv [.num (.float ⟨73728, 73728⟩), .num (.float ⟨73728, 73728⟩), .num (.int 5)],
   pv [.num (.float ⟨221184, 73728⟩), .num (.float ⟨73728, 73728⟩)],
   pv [.num (.float ⟨221184, 73728⟩), .num (.float ⟨221184, 73728⟩)],
   pv [.num (.float ⟨73728, 73728⟩), .num (.float ⟨221184, 73728⟩)],
   pv [.num (.float ⟨73728, 73728⟩), .num (.float ⟨73728, 73728⟩), .num (.int 5)]]

/-- The shrunk ring the code produces for `ringC1` with factor 2. -/
def ringC1shrunk : List PyVal :=
  [pv [.num (.float ⟨73728, 73728⟩), .num (.float ⟨73728, 73728⟩)],
   pv [.num (.float ⟨221184, 73728⟩), .num (.float ⟨73728, 73728⟩)],
   pv [.num (.float ⟨221184, 73728⟩), .num (.float ⟨221184, 73728⟩)],
   pv [.num (.float ⟨73728, 73728⟩), .num (.float ⟨221184, 73728⟩)],
   pv [.num (.float ⟨73728, 73728⟩), .num (.float ⟨73728, 73728⟩)]]

/-- Three collinear vertices `(0,0), (1,0), (2,0)` (zero signed area). -/
def coordsCol : List Coord :=
  [⟨.int 0, .int 0, []⟩, ⟨.int 1, .int 0, []⟩, ⟨.int 2, .int 0, []⟩]

/-- The body of the ring loop of `_shrink_polygon_rings` (the per-ring
validation and scaling step), named for reuse in proofs. -/
def shrinkRingStep (cx cy : Frac) (factor : ℚ) (ringV : PyVal) : Except GeoError PyVal :=
  match ringV with
  | PyVal.list ringPL =>
    if ringPL.length < 3 then
      Except.error (GeoError.invalidGeometry
        "Each ring must be a list of at least 3 coordinates")
    else
      match _scale_ring_about_xy_centroid ringPL.toList cx cy
          ((Frac.ofInt 1).div (Frac.ofRat factor)) with
      | .error e => .error e
      | .ok out => .ok (pv out)
  | _ => Except.error (GeoError.invalidGeometry
      "Each ring must be a list of at least 3 coordinates")

/-- A polygon (as numeric data) whose outer ring is fine but whose hole ring
has a coordinate with fewer than 2 components. -/
def ringsC8 : List (List (List PyNum)) :=
  [[[.int 0, .int 0], [.int 4, .int 0], [.int 4, .int 4]],
   [[.int 1], [.int 1, .int 2], [.int 2, .int 2]]]

/-! ## Basic lemmas about the numeric model and combinators -/

theorem Frac.pos_ofInt (n : ℤ) : (Frac.ofInt n).Pos := by simp [Frac.ofInt, Frac.Pos]

theorem Frac.pos_ofRat (q : ℚ) : (Frac.ofRat q).Pos := by
  simp [Frac.ofRat, Frac.Pos]; exact_mod_cast q.pos

theorem Frac.pos_add {a b : Frac} (ha : a.Pos) (hb : b.Pos) : (a.add b).Pos :=
  mul_pos ha hb

theorem Frac.pos_sub {a b : Frac} (ha : a.Pos) (hb : b.Pos) : (a.sub b).Pos :=
  mul_pos ha hb

theorem Frac.pos_mul {a b : Frac} (ha : a.Pos) (hb : b.Pos) : (a.mul b).Pos :=
  mul_pos ha hb

theorem Frac.pos_div {a b : Frac} (ha : a.Pos) (_hb : b.Pos) (hnz : b.num ≠ 0) :
    (a.div b).Pos := by
  unfold Frac.div
  rcases lt_or_gt_of_ne hnz with h | h
  · rw [if_neg (by omega)]
    exact mul_pos (by omega : (0:ℤ) < -b.num) ha |>.trans_eq (by ring)
  · rw [if_pos (by omega)]
    exact mul_pos ha h

theorem Frac.toRat_ofInt (n : ℤ) : (Frac.ofInt n).toRat = (n : ℚ) := by
  simp [Frac.ofInt, Frac.toRat]

theorem Frac.toRat_ofRat (q : ℚ) : (Frac.ofRat q).toRat = q := by
  simp [Frac.ofRat, Frac.toRat]
  exact_mod_cast Rat.num_div_den q

theorem Frac.toRat_add {a b : Frac} (ha : a.Pos) (hb : b.Pos) :
    (a.add b).toRat = a.toRat + b.toRat := by
  unfold Frac.add Frac.toRat
  have ha' : (a.den : ℚ) ≠ 0 := by exact_mod_cast ha.ne'
  have hb' : (b.den : ℚ) ≠ 0 := by exact_mod_cast hb.ne'
  field_simp
  try push_cast
  try ring

theorem Frac.toRat_sub {a b : Frac} (ha : a.Pos) (hb : b.Pos) :
    (a.sub b).toRat = a.toRat - b.toRat := by
  unfold Frac.sub Frac.toRat
  have ha' : (a.den : ℚ) ≠ 0 := by exact_mod_cast ha.ne'
  have hb' : (b.den : ℚ) ≠ 0 := by exact_mod_cast hb.ne'
  field_simp
  try push_cast
  try ring

theorem Frac.toRat_mul (a b : Frac) : (a.mul b).toRat = a.toRat * b.toRat := by
  unfold Frac.mul Frac.toRat
  push_cast
  rw [div_mul_div_comm]

theorem Frac.toRat_div (a b : Frac) : (a.div b).toRat = a.toRat / b.toRat := by
  unfold Frac.div Frac.toRat
  rcases le_or_lt 0 b.num with h | h
  · rw [if_pos h]
    push_cast
    rw [mul_div_mul_comm, div_div_eq_mul_div, mul_div_assoc]
  · rw [if_neg (not_le.mpr h)]
    push_cast
    rw [neg_div_neg_eq, mul_div_mul_comm, div_div_eq_mul_div, mul_div_assoc]

theorem Frac.blt_iff {a b : Frac} (ha : a.Pos) (hb : b.Pos) :
    a.blt b = true ↔ a.toRat < b.toRat := by
  unfold Frac.blt Frac.toRat
  rw [decide_eq_true_eq, div_lt_div_iff₀ (by exact_mod_cast ha) (by exact_mod_cast hb)]
  exact_mod_cast Iff.rfl

theorem Frac.toRat_fabs {a : Frac} (ha : a.Pos) : a.fabs.toRat = |a.toRat| := by
  have hd : (0:ℚ) ≤ (a.den : ℚ) := by exact_mod_cast ha.le
  unfold Frac.fabs Frac.toRat
  rcases lt_or_le a.num 0 with h | h
  · rw [if_pos h, abs_div, abs_of_neg (by exact_mod_cast h), abs_of_nonneg hd]
    push_cast
    ring
  · rw [if_neg (not_lt.mpr h), abs_div, abs_of_nonneg (by exact_mod_cast h),
      abs_of_nonneg hd]

theorem Frac.pos_fabs {a : Frac} (ha : a.Pos) : a.fabs.Pos := ha

theorem PyNum.toFrac_pos {n : PyNum} (h : n.WF) : n.toFrac.Pos := by
  cases n with
  | int m => exact Frac.pos_ofInt m
  | float f => exact h

theorem PyNum.toRat_toFrac {n : PyNum} (h : n.WF) : n.toFrac.toRat = n.toQ := by
  cases n with
  | int m => exact Frac.toRat_ofInt m
  | float f => rfl

theorem PyList.toList_ofList (l : List PyVal) : (PyList.ofList l).toList = l := by
  induction l with
  | nil => rfl
  | cons v l ih => simp [PyList.ofList, PyList.toList, ih]

theorem PyList.length_toList : ∀ (l : PyList), l.toList.length = l.length
  | .nil => rfl
  | .cons v l => by simp [PyList.toList, PyList.length, PyList.length_toList l]

theorem mapE_map_ok {α β : Type} {f : α → Except GeoError β} {g : α → β} :
    ∀ {l : List α}, (∀ a ∈ l, f a = .ok (g a)) → mapE f l = .ok (l.map g)
  | [], _ => rfl
  | a :: l, h => by
    have ha := h a (List.mem_cons_self a l)
    have hl := mapE_map_ok (f := f) (g := g) (l := l)
      (fun b hb => h b (List.mem_cons_of_mem a hb))
    simp [mapE, ha, hl]

theorem mapE_ok_length {α β : Type} {f : α → Except GeoError β} :
    ∀ {l : List α} {l' : List β}, mapE f l = .ok l' → l'.length = l.length := by
  intro l
  induction l with
  | nil => intro l' h; simp [mapE] at h; simp [← h]
  | cons a l ih =>
    intro l' h
    unfold mapE at h
    rcases hfa : f a with e | b <;> rw [hfa] at h
    · exact absurd h (by simp)
    · rcases hml : mapE f l with e | bs <;> rw [hml] at h
      · exact absurd h (by simp)
      · cases h
        simp [ih hml]

theorem mapE_ok_getElem? {α β : Type} {f : α → Except GeoError β} :
    ∀ {l : List α} {l' : List β}, mapE f l = .ok l' →
      ∀ (j : Nat) (a : α), l[j]? = some a → ∃ b, l'[j]? = some b ∧ f a = .ok b := by
  intro l
  induction l with
  | nil => intro l' _ j a ha; simp at ha
  | cons x l ih =>
    intro l' h j a ha
    unfold mapE at h
    rcases hfa : f x with e | b <;> rw [hfa] at h
    · exact absurd h (by simp)
    · rcases hml : mapE f l with e | bs <;> rw [hml] at h
      · exact absurd h (by simp)
      · cases h
        cases j with
        | zero =>
          simp at ha; subst ha
          exact ⟨b, List.getElem?_cons_zero, hfa⟩
        | succ j =>
          simp only [List.getElem?_cons_succ] at ha ⊢
          exact ih hml j a ha

theorem mapE_ok_mem {α β : Type} {f : α → Except GeoError β} :
    ∀ {l : List α} {l' : List β}, mapE f l = .ok l' →
      ∀ a ∈ l, ∃ b, f a = .ok b := by
  intro l
  induction l with
  | nil => intro l' _ a ha; simp at ha
  | cons x l ih =>
    intro l' h a ha
    unfold mapE at h
    rcases hfa : f x with e | b <;> rw [hfa] at h
    · exact absurd h (by simp)
    · rcases hml : mapE f l with e | bs <;> rw [hml] at h
      · exact absurd h (by simp)
      · rcases List.mem_cons.mp ha with rfl | ha
        · exact ⟨b, hfa⟩
        · exact ih hml a ha

theorem mapE_error_mem {α β : Type} {f : α → Except GeoError β} :
    ∀ {l : List α} {e : GeoError}, mapE f l = .error e →
      ∃ a ∈ l, f a = .error e := by
  intro l
  induction l with
  | nil => intro e h; simp [mapE] at h
  | cons x l ih =>
    intro e h
    unfold mapE at h
    rcases hfa : f x with e' | b <;> rw [hfa] at h
    · cases h
      exact ⟨x, List.mem_cons_self x l, hfa⟩
    · rcases hml : mapE f l with e' | bs <;> rw [hml] at h
      · cases h
        rcases ih hml with ⟨a, ha, hae⟩
        exact ⟨a, List.mem_cons_of_mem x ha, hae⟩
      · exact absurd h (by simp)

/-- Python `==` of two numbers decides equality of mathematical values. -/
theorem pyEq_num_iff {a b : PyNum} (ha : a.WF) (hb : b.WF) :
    pyEq (.num a) (.num b) = true ↔ a.toQ = b.toQ := by
  have hpa := PyNum.toFrac_pos ha
  have hpb := PyNum.toFrac_pos hb
  rw [← PyNum.toRat_toFrac ha, ← PyNum.toRat_toFrac hb]
  unfold pyEq Frac.toRat
  rw [decide_eq_true_eq,
    div_eq_div_iff (by exact_mod_cast hpa.ne' : ((a.toFrac.den : ℚ)) ≠ 0)
      (by exact_mod_cast hpb.ne' : ((b.toFrac.den : ℚ)) ≠ 0)]
  exact_mod_cast Iff.rfl

theorem sumFrac_spec :
    ∀ {l : List Frac}, (∀ x ∈ l, x.Pos) →
      (sumFrac l).Pos ∧ (sumFrac l).toRat = (l.map Frac.toRat).sum := by
  have aux : ∀ (l : List Frac) (acc : Frac), (∀ x ∈ l, x.Pos) → acc.Pos →
      (l.foldl Frac.add acc).Pos ∧
        (l.foldl Frac.add acc).toRat = acc.toRat + (l.map Frac.toRat).sum := by
    intro l
    induction l with
    | nil => intro acc _ hacc; simpa using hacc
    | cons x l ih =>
      intro acc h hacc
      have hx := h x (List.mem_cons_self x l)
      have h' := fun y hy => h y (List.mem_cons_of_mem x hy)
      have hax : (acc.add x).Pos := Frac.pos_add hacc hx
      rcases ih (acc.add x) h' hax with ⟨h1, h2⟩
      refine ⟨h1, ?_⟩
      simp only [List.foldl_cons, List.map_cons, List.sum_cons] at h2 ⊢
      rw [h2, Frac.toRat_add hacc hx]
      ring
  intro l h
  have := aux l ⟨0, 1⟩ h (by norm_num [Frac.Pos])
  refine ⟨this.1, ?_⟩
  rw [sumFrac, this.2]
  norm_num [Frac.toRat]

theorem foldl_shoelaceStep :
    ∀ (ps : List ((Frac × Frac) × (Frac × Frac))) (acc : Frac × Frac × Frac),
      (∀ p ∈ ps, PairsPos p) → acc.1.Pos → acc.2.1.Pos → acc.2.2.Pos →
      ((ps.foldl shoelaceStep acc).1.Pos ∧ (ps.foldl shoelaceStep acc).2.1.Pos ∧
        (ps.foldl shoelaceStep acc).2.2.Pos) ∧
      (ps.foldl shoelaceStep acc).1.toRat = acc.1.toRat + (ps.map crossQ).sum ∧
      (ps.foldl shoelaceStep acc).2.1.toRat = acc.2.1.toRat + (ps.map cxQ).sum ∧
      (ps.foldl shoelaceStep acc).2.2.toRat = acc.2.2.toRat + (ps.map cyQ).sum := by
  intro ps
  induction ps with
  | nil => intro acc _ h1 h2 h3; exact ⟨⟨h1, h2, h3⟩, by simp, by simp, by simp⟩
  | cons p ps ih =>
    intro acc h h1 h2 h3
    rcases h p (List.mem_cons_self p ps) with ⟨hx0, hy0, hx1, hy1⟩
    have h' := fun q hq => h q (List.mem_cons_of_mem p hq)
    have hcross : ((p.1.1.mul p.2.2).sub (p.2.1.mul p.1.2)).Pos :=
      Frac.pos_sub (Frac.pos_mul hx0 hy1) (Frac.pos_mul hx1 hy0)
    have hcrossR : ((p.1.1.mul p.2.2).sub (p.2.1.mul p.1.2)).toRat = crossQ p := by
      rw [Frac.toRat_sub (Frac.pos_mul hx0 hy1) (Frac.pos_mul hx1 hy0),
        Frac.toRat_mul, Frac.toRat_mul]
      rfl
    have ha1 : (shoelaceStep acc p).1.Pos := Frac.pos_add h1 hcross
    have ha2 : (shoelaceStep acc p).2.1.Pos :=
      Frac.pos_add h2 (Frac.pos_mul (Frac.pos_add hx0 hx1) hcross)
    have ha3 : (shoelaceStep acc p).2.2.Pos :=
      Frac.pos_add h3 (Frac.pos_mul (Frac.pos_add hy0 hy1) hcross)
    rcases ih (shoelaceStep acc p) h' ha1 ha2 ha3 with ⟨hp, e1, e2, e3⟩
    refine ⟨hp, ?_, ?_, ?_⟩
    · simp only [List.foldl_cons, List.map_cons, List.sum_cons] at e1 ⊢
      rw [e1]
      show (acc.1.add _).toRat + _ = _
      rw [Frac.toRat_add h1 hcross, hcrossR]
      ring
    · simp only [List.foldl_cons, List.map_cons, List.sum_cons] at e2 ⊢
      rw [e2]
      show (acc.2.1.add _).toRat + _ = _
      rw [Frac.toRat_add h2 (Frac.pos_mul (Frac.pos_add hx0 hx1) hcross),
        Frac.toRat_mul, Frac.toRat_add hx0 hx1, hcrossR]
      show _ = acc.2.1.toRat + ((p.1.1.toRat + p.2.1.toRat) * crossQ p + _)
      ring
    · simp only [List.foldl_cons, List.map_cons, List.sum_cons] at e3 ⊢
      rw [e3]
      show (acc.2.2.add _).toRat + _ = _
      rw [Frac.toRat_add h3 (Frac.pos_mul (Frac.pos_add hy0 hy1) hcross),
        Frac.toRat_mul, Frac.toRat_add hy0 hy1, hcrossR]
      show _ = acc.2.2.toRat + ((p.1.2.toRat + p.2.2.toRat) * crossQ p + _)
      ring

theorem sum_map_zip_tail {α : Type} (f : α × α → ℚ) (d : α) :
    ∀ (l : List α),
      ((l.zip l.tail).map f).sum =
        ∑ i in Finset.range (l.length - 1), f (l.getD i d, l.getD (i + 1) d)
  | [] => by simp
  | [a] => by simp
  | a :: b :: t => by
    have ih := sum_map_zip_tail f d (b :: t)
    simp only [List.tail_cons] at ih
    simp only [List.zip_cons_cons, List.tail_cons, List.map_cons, List.sum_cons]
    rw [ih]
    have hlen : (a :: b :: t).length - 1 = ((b :: t).length - 1) + 1 := by
      simp
    rw [hlen, Finset.sum_range_succ']
    simp only [List.getD_cons_succ, List.getD_cons_zero]
    rw [add_comm]

/-! ## Claim theorems -/

/-- C1: for the square Polygon `[[0,0],[4,0],[4,4],[0,4],[0,0]]` with
`shrink_factor = 2.0` and the default (`"first"`) multipolygon policy,
`geojson_to_shrunk_polygon_wkt` computes the outer-ring centroid `(2, 2)`,
applies the linear scale `1/2`, and returns exactly
`"POLYGON ((1 1, 3 1, 3 3, 1 3, 1 1))"`. -/
theorem claim_C1_concrete_scenario :
    _outer_ring_centroid_xy ringC1 = .ok (⟨384, 192⟩, ⟨384, 192⟩) ∧
    Frac.toRat ⟨384, 192⟩ = 2 ∧
    (Frac.ofInt 1).div (Frac.ofRat 2) = ⟨1, 2⟩ ∧
    Frac.toRat ⟨1, 2⟩ = 1 / 2 ∧
    geojson_to_shrunk_polygon_wkt geomC1 "first" 2 =
      .ok "POLYGON ((1 1, 3 1, 3 3, 1 3, 1 1))" := by
  refine ⟨by rfl, by norm_num [Frac.toRat], by decide, by norm_num [Frac.toRat], by rfl⟩

/-- C9 counterexample: a Polygon whose `coordinates` is the *empty* list is
accepted by `geojson_to_polygon_wkt` and yields `"POLYGON ()"`, so the
converter does not require the ring sequence to be non-empty. -/
theorem claim_C9_cex :
    geojson_to_polygon_wkt ⟨some "Polygon", pv []⟩ "first" = .ok "POLYGON ()" := by
  rfl

/-- C8 counterexample: for the Polygon `[[[0],[1],[2]]]` (outer ring of three
one-component coordinates) and `shrink_factor = 2`, the shrink converter
fails with an uncaught `IndexError` (raised by `p[1]` inside
`_outer_ring_centroid_xy`), not with `InvalidGeometry` as the claim states. -/
theorem claim_C8_cex :
    geojson_to_shrunk_polygon_wkt geomShortCoord "first" 2 =
      .error (.indexError "list index out of range") ∧
    (match geojson_to_shrunk_polygon_wkt geomShortCoord "first" 2 with
      | .error (.invalidGeometry _) => True
      | _ => False) = False := by
  exact ⟨by rfl, by rfl⟩

/-- C3 counterexample: the square ring closed in XY with `z = 5` on the first
vertex and `z = 7` on the last.  The code's closure forcing copies the first
output coordinate over the last, so the last output coordinate carries
`z = 5`, whereas the claim's mapping (`Z` passed through unchanged, i.e. the
shape `scaledShape coordZ7 xs ys` for the last input coordinate `coordZ7`,
whose third component is `7`) demands `z = 7`. -/
theorem claim_C3_cex :
    _shrink_polygon_rings (pv [pv ringZ57]) 2 = .ok [pv ringZ57shrunk] ∧
    ringZ57.getLast? = some (pv [.num (.int 0), .num (.int 0), .num (.int 7)]) ∧
    ringZ57shrunk.getLast? =
      some (pv [.num (.float ⟨73728, 73728⟩), .num (.float ⟨73728, 73728⟩), .num (.int 5)]) ∧
    scaledShape coordZ7 ⟨73728, 73728⟩ ⟨73728, 73728⟩ =
      pv [.num (.float ⟨73728, 73728⟩), .num (.float ⟨73728, 73728⟩), .num (.int 7)] ∧
    pv [.num (.float ⟨73728, 73728⟩), .num (.float ⟨73728, 73728⟩), .num (.int 5)] ≠
      pv [.num (.float ⟨73728, 73728⟩), .num (.float ⟨73728, 73728⟩), .num (.int 7)] := by
  refine ⟨by rfl, by rfl, by rfl, by rfl, by decide⟩

/-- C10: the multipolygon policy is never validated against `{first, error}`:
for every geometry and every policy string other than `"error"`, both
converters behave exactly as with policy `"first"`. -/
theorem claim_C10_policy_unvalidated (g : Geometry) (pol : String) (f : ℚ)
    (h : pol ≠ "error") :
    geojson_to_polygon_wkt g pol = geojson_to_polygon_wkt g "first" ∧
    geojson_to_shrunk_polygon_wkt g pol f = geojson_to_shrunk_polygon_wkt g "first" f := by
  have hd : (pol = "error") = False := by simp [h]
  have hd2 : (("first" : String) = "error") = False := by simp
  constructor
  · rcases g with ⟨gt, coords⟩
    rcases gt with _ | t
    · rfl
    · simp only [geojson_to_polygon_wkt, hd, hd2]
  · rcases g with ⟨gt, coords⟩
    rcases gt with _ | t
    · rfl
    · simp only [geojson_to_shrunk_polygon_wkt, hd, hd2]

/-- Witness for C10 at a concrete input: an arbitrary invalid policy string
behaves exactly as `"first"` on a two-part MultiPolygon. -/
theorem claim_C10_witness :
    geojson_to_polygon_wkt geomMP2 "banana" = geojson_to_polygon_wkt geomMP2 "first" ∧
    geojson_to_shrunk_polygon_wkt geomMP2 "banana" 2 =
      geojson_to_shrunk_polygon_wkt geomMP2 "first" 2 :=
  claim_C10_policy_unvalidated geomMP2 "banana" 2 (by decide)

/-- C6: MultiPolygon policy.  (a) With policy `"error"`, a MultiPolygon with
two or more parts fails with `InvalidGeometry` (the multiple-polygons
message).  (b) With policy `"first"`, a MultiPolygon whose first part is a
list of rings gives a result byte-identical to converting a Polygon built
from that same first part. -/
theorem claim_C6_multipolygon_policy :
    (∀ (p1 p2 : PyVal) (rest : PyList),
      geojson_to_polygon_wkt ⟨some "MultiPolygon", .list (.cons p1 (.cons p2 rest))⟩ "error" =
        .error (.invalidGeometry
          "MultiPolygon has multiple polygons; set on_multipolygon='first' to pick the first")) ∧
    (∀ (cr rest : PyList),
      geojson_to_polygon_wkt ⟨some "MultiPolygon", .list (.cons (.list cr) rest)⟩ "first" =
        geojson_to_polygon_wkt ⟨some "Polygon", .list cr⟩ "first") := by
  constructor
  · intro p1 p2 rest
    simp [geojson_to_polygon_wkt, PyList.length]
  · intro cr rest
    simp [geojson_to_polygon_wkt]

/-- Witness for C6 at a concrete two-part MultiPolygon. -/
theorem claim_C6_witness :
    geojson_to_polygon_wkt
        ⟨some "MultiPolygon", .list (.cons (pv [pv ringC1]) (.cons (pv [pv ringC1]) .nil))⟩
        "error" =
      .error (.invalidGeometry
        "MultiPolygon has multiple polygons; set on_multipolygon='first' to pick the first") ∧
    geojson_to_polygon_wkt
        ⟨some "MultiPolygon", .list (.cons (.list (.ofList [pv ringC1])) .nil)⟩ "first" =
      geojson_to_polygon_wkt ⟨some "Polygon", .list (.ofList [pv ringC1])⟩ "first" :=
  ⟨claim_C6_multipolygon_policy.1 _ _ _, claim_C6_multipolygon_policy.2 _ _⟩

/-- The closure forcing of `_scale_ring_about_xy_centroid`: a successful
scaling of a ring whose first and last coordinates pass the code's
XY-equality test yields an output whose last element is a copy of its
first. -/
theorem scale_ring_closed_helper {ring out : List PyVal} {cx cy s : Frac}
    (hok : _scale_ring_about_xy_centroid ring cx cy s = .ok out)
    {a b : PyVal} (hha : ring.head? = some a) (hlb : ring.getLast? = some b)
    (hcl : closedXY a b = true) (hlen : 2 ≤ ring.length) :
    out ≠ [] ∧ out.head? = out.getLast? := by
  unfold _scale_ring_about_xy_centroid at hok
  rcases hm : mapE (_scale_coord cx cy s) ring with e | out0 <;> rw [hm] at hok
  · exact absurd hok (by simp)
  · have hlen0 : out0.length = ring.length := mapE_ok_length hm
    dsimp only at hok
    rw [if_pos hlen, hha, hlb] at hok
    rcases out0 with _ | ⟨o0, os⟩
    · simp at hlen0; omega
    · simp only [List.head?_cons] at hok
      rw [if_pos hcl] at hok
      cases hok
      have hlS : ((o0 :: os).set ((o0 :: os).length - 1) o0).length = ring.length := by
        rw [List.length_set]; exact hlen0
      refine ⟨?_, ?_⟩
      · intro hemp
        have h0 : ring.length = 0 := by rw [← hlS, hemp]; rfl
        rw [h0] at hlen
        exact absurd hlen (by norm_num)
      · have hne0 : (o0 :: os).length - 1 ≠ 0 := by
          rw [hlen0]
          omega
        have hhead : ((o0 :: os).set ((o0 :: os).length - 1) o0)[0]? = some o0 := by
          rw [List.getElem?_set_ne hne0]
          exact List.getElem?_cons_zero
        have hlast : ((o0 :: os).set ((o0 :: os).length - 1) o0).getLast? = some o0 := by
          rw [List.getLast?_eq_getElem?, List.length_set]
          exact List.getElem?_set_self (by simp)
        rw [← List.head?_eq_getElem?] at hhead
        rw [hhead, hlast]

/-- C4: closure preservation.  Whenever `_shrink_polygon_rings` (the ring
processor of `geojson_to_shrunk_polygon_wkt`) succeeds on a list of rings,
every processed ring whose first and last input coordinates have equal X and
equal Y (the code's `==` test, `closedXY`) produces an output ring whose
last coordinate is exactly its first coordinate. -/
theorem claim_C4_closure_preservation (ringsPL : PyList) (f : ℚ) (out : List PyVal)
    (hok : _shrink_polygon_rings (.list ringsPL) f = .ok out)
    (j : Nat) (ringPL : PyList) (hj : ringsPL.toList[j]? = some (.list ringPL))
    (a b : PyVal) (hha : ringPL.toList.head? = some a)
    (hlb : ringPL.toList.getLast? = some b) (hcl : closedXY a b = true) :
    ∃ outRing : List PyVal, out[j]? = some (pv outRing) ∧
      outRing ≠ [] ∧ outRing.head? = outRing.getLast? := by
  unfold _shrink_polygon_rings at hok
  split at hok
  case _ outerV restPL heq =>
    injection heq with heq
    subst heq
    by_cases hf : f ≤ 0
    · rw [if_pos hf] at hok
      exact absurd hok (by simp)
    · rw [if_neg hf] at hok
      split at hok
      case _ outerPL =>
        by_cases h3 : outerPL.length < 3
        · rw [if_pos h3] at hok
          exact absurd hok (by simp)
        · rw [if_neg h3] at hok
          split at hok
          case _ e he => exact absurd hok (by simp)
          case _ cxy cx cy hc =>
            obtain ⟨bb, hbj, hfb⟩ := mapE_ok_getElem? hok j _ hj
            dsimp only at hfb
            by_cases h3r : ringPL.length < 3
            · rw [if_pos h3r] at hfb
              exact absurd hfb (by simp)
            · rw [if_neg h3r] at hfb
              split at hfb
              case _ e he => exact absurd hfb (by simp)
              case _ o hs =>
                cases hfb
                have h2 : 2 ≤ ringPL.toList.length := by
                  rw [PyList.length_toList]
                  omega
                obtain ⟨hne, hh⟩ := scale_ring_closed_helper hs hha hlb hcl h2
                exact ⟨o, hbj, hne, hh⟩
      case _ c hx =>
        exact absurd hok (by simp)
  case _ =>
    exact absurd hok (by simp)

/-- Witness for C4: the closed square `ringC1` shrunk by factor 2. -/
theorem claim_C4_witness :
    closedXY (pv [.num (.int 0), .num (.int 0)]) (pv [.num (.int 0), .num (.int 0)]) = true ∧
    ∃ outRing : List PyVal, [pv ringC1shrunk][0]? = some (pv outRing) ∧
      outRing ≠ [] ∧ outRing.head? = outRing.getLast? :=
  ⟨by decide,
   claim_C4_closure_preservation (.cons (pv ringC1) .nil) 2 [pv ringC1shrunk] (by rfl)
     0 (.ofList ringC1) (by rfl) (pv [.num (.int 0), .num (.int 0)])
     (pv [.num (.int 0), .num (.int 0)]) (by rfl) (by rfl) (by decide)⟩

/-! ## No failure path other than the `shrink_factor` check raises
`InvalidArgument` (§7): the `NotIA` lemma suite. -/

theorem NotIA_mapE {α β : Type} {f : α → Except GeoError β} {l : List α}
    (h : ∀ a ∈ l, NotIA (f a)) : NotIA (mapE f l) := by
  intro m hm
  obtain ⟨a, ha, he⟩ := mapE_error_mem hm
  exact h a ha m he

theorem err_ne_of_NotIA {α β : Type} {x : Except GeoError α} (hx : NotIA x) {e : GeoError}
    (he : x = .error e) (m : String) :
    (Except.error e : Except GeoError β) ≠ .error (.invalidArgument m) := by
  intro h
  injection h with h
  exact hx m (by rw [he, h])

theorem NotIA_pyGet (p : PyVal) (i : Nat) : NotIA (pyGet p i) := by
  intro m
  unfold pyGet
  split
  · split <;> simp
  · simp

theorem NotIA_asNum (p : PyVal) : NotIA (asNum p) := by
  intro m
  unfold asNum
  split <;> simp

theorem NotIA_centroid (ring : List PyVal) : NotIA (_outer_ring_centroid_xy ring) := by
  intro m
  unfold _outer_ring_centroid_xy
  by_cases h3 : ring.length < 3
  · rw [if_pos h3]
    rcases h0 : mapE (fun p => pyGet p 0) ring with e | xsv
    · exact err_ne_of_NotIA (NotIA_mapE fun a _ => NotIA_pyGet a 0) h0 m
    · rcases h1 : mapE (fun p => pyGet p 1) ring with e | ysv
      · exact err_ne_of_NotIA (NotIA_mapE fun a _ => NotIA_pyGet a 1) h1 m
      · dsimp only
        rcases h2 : mapE asNum (if xsv.isEmpty = true then [PyVal.num (.float ⟨0, 1⟩)] else xsv) with e | xs
        · exact err_ne_of_NotIA (NotIA_mapE fun a _ => NotIA_asNum a) h2 m
        · rcases h4 : mapE asNum (if ysv.isEmpty = true then [PyVal.num (.float ⟨0, 1⟩)] else ysv) with e | ys
          · exact err_ne_of_NotIA (NotIA_mapE fun a _ => NotIA_asNum a) h4 m
          · simp
  · rw [if_neg h3]
    rcases h0 : mapE (fun p => do
        let x ← pyGet p 0
        let y ← pyGet p 1
        pure (x, y)) ring with e | xyv
    · refine err_ne_of_NotIA (NotIA_mapE fun a _ => ?_) h0 m
      intro m'
      simp only [bind, Except.bind]
      rcases ha : pyGet a 0 with e' | x
      · exact err_ne_of_NotIA (NotIA_pyGet a 0) ha m'
      · rcases hb : pyGet a 1 with e' | y
        · exact err_ne_of_NotIA (NotIA_pyGet a 1) hb m'
        · simp [pure, Except.pure]
    · dsimp only
      rcases h1 : mapE (fun xy : PyVal × PyVal => do
          let x ← asNum xy.1
          let y ← asNum xy.2
          pure (x, y)) xyv with e | xys
      · refine err_ne_of_NotIA (NotIA_mapE fun a _ => ?_) h1 m
        intro m'
        simp only [bind, Except.bind]
        rcases ha : asNum a.1 with e' | x
        · exact err_ne_of_NotIA (NotIA_asNum a.1) ha m'
        · rcases hb : asNum a.2 with e' | y
          · exact err_ne_of_NotIA (NotIA_asNum a.2) hb m'
          · simp [pure, Except.pure]
      · dsimp only
        split <;> simp

theorem NotIA_scale_coord (cx cy s : Frac) (p : PyVal) : NotIA (_scale_coord cx cy s p) := by
  intro m
  unfold _scale_coord
  split
  case _ px py rest =>
    rcases ha : asNum px with e | x
    · exact err_ne_of_NotIA (NotIA_asNum px) ha m
    · rcases hb : asNum py with e | y
      · exact err_ne_of_NotIA (NotIA_asNum py) hb m
      · dsimp only
        split <;> simp
  case _ hx => simp

theorem NotIA_scale_ring (ring : List PyVal) (cx cy s : Frac) :
    NotIA (_scale_ring_about_xy_centroid ring cx cy s) := by
  intro m
  unfold _scale_ring_about_xy_centroid
  rcases hm : mapE (_scale_coord cx cy s) ring with e | out
  · exact err_ne_of_NotIA (NotIA_mapE fun a _ => NotIA_scale_coord cx cy s a) hm m
  · dsimp only
    split
    · split
      · split <;> simp
      · simp
    · simp

theorem NotIA_fmtNumV (p : PyVal) : NotIA (fmtNumV p) := by
  intro m
  unfold fmtNumV
  split <;> simp

theorem NotIA_fmt_coord (p : PyVal) : NotIA (_fmt_coord p) := by
  intro m
  unfold _fmt_coord
  split
  case _ l =>
    rcases hc : mapE fmtNumV (l.toList.take 3) with e | ps
    · exact err_ne_of_NotIA (NotIA_mapE fun b _ => NotIA_fmtNumV b) hc m
    · simp
  case _ hx => simp

theorem NotIA_fmt_coord_list (p : PyVal) : NotIA (_fmt_coord_list p) := by
  intro m
  unfold _fmt_coord_list
  split
  case _ l =>
    rcases hc : mapE _fmt_coord l.toList with e | ps
    · exact err_ne_of_NotIA (NotIA_mapE fun b _ => NotIA_fmt_coord b) hc m
    · simp
  case _ hx => simp

theorem NotIA_fmt_ring (ring : PyVal) : NotIA (_fmt_ring ring) := by
  intro m
  unfold _fmt_ring
  rcases h : _fmt_coord_list ring with e | s
  · exact err_ne_of_NotIA (NotIA_fmt_coord_list ring) h m
  · simp

theorem NotIA_shrink (rings : PyVal) (f : ℚ) (hf : 0 < f) :
    NotIA (_shrink_polygon_rings rings f) := by
  intro m
  unfold _shrink_polygon_rings
  split
  case _ outerV restPL =>
    rw [if_neg (not_le.mpr hf)]
    split
    case _ outerPL =>
      split
      · simp
      · rcases hc : _outer_ring_centroid_xy outerPL.toList with e | cxy
        · exact err_ne_of_NotIA (NotIA_centroid outerPL.toList) hc m
        · rcases cxy with ⟨cx, cy⟩
          exact NotIA_mapE (fun a ha => by
            intro m'
            split
            case _ c ringL =>
              split
              · simp
              · rcases hs : _scale_ring_about_xy_centroid ringL.toList cx cy
                    ((Frac.ofInt 1).div (Frac.ofRat f)) with e' | o
                · exact err_ne_of_NotIA (NotIA_scale_ring ringL.toList cx cy _) hs m'
                · simp
            case _ c hx => simp) m
    case _ hx => simp
  case _ => simp

theorem NotIA_shrunk_wkt (g : Geometry) (pol : String) (f : ℚ) (hf : 0 < f) :
    NotIA (geojson_to_shrunk_polygon_wkt g pol f) := by
  intro m
  unfold geojson_to_shrunk_polygon_wkt
  split
  · simp
  case _ gtype heq =>
    by_cases h1 : gtype = ""
    · rw [if_pos h1]; simp
    · rw [if_neg h1]
      by_cases h2 : gtype = "Polygon"
      · rw [if_pos h2]
        rcases hs : _shrink_polygon_rings g.coordinates f with e | shrunk
        · exact err_ne_of_NotIA (NotIA_shrink _ f hf) hs m
        · dsimp only
          rcases hm : mapE _fmt_ring shrunk with e | parts
          · exact err_ne_of_NotIA (NotIA_mapE fun a _ => NotIA_fmt_ring a) hm m
          · simp
      · rw [if_neg h2]
        by_cases h3 : gtype = "MultiPolygon"
        · rw [if_pos h3]
          split
          case _ x chosenV polysRest hco =>
            split
            · simp
            · split
              case _ chosenRings _hif =>
                rcases hs : _shrink_polygon_rings (PyVal.list chosenRings) f with e | shrunk
                · exact err_ne_of_NotIA (NotIA_shrink _ f hf) hs m
                · dsimp only
                  rcases hm : mapE _fmt_ring shrunk with e | parts
                  · exact err_ne_of_NotIA (NotIA_mapE fun a _ => NotIA_fmt_ring a) hm m
                  · simp
              case _ => simp
          case _ => simp
        · rw [if_neg h3]; simp

/-- C7: for every structurally valid Polygon geometry,
`geojson_to_shrunk_polygon_wkt` fails with `InvalidArgument` (and nothing
else) exactly when `shrink_factor ≤ 0`: it returns the `InvalidArgument`
error whenever `shrink_factor ≤ 0`, and never returns an `InvalidArgument`
error when `shrink_factor > 0`. -/
theorem claim_C7_shrink_factor_domain (g : Geometry) (pol : String) (f : ℚ)
    (hv : StructValidPolygon g) :
    (f ≤ 0 → geojson_to_shrunk_polygon_wkt g pol f =
      .error (.invalidArgument "shrink_factor must be > 0")) ∧
    (0 < f → ∀ m, geojson_to_shrunk_polygon_wkt g pol f ≠ .error (.invalidArgument m)) := by
  obtain ⟨hty, rl, hco, hne, _⟩ := hv
  constructor
  · intro hf
    rcases g with ⟨gt, coords⟩
    simp only at hty hco
    subst hty
    subst hco
    rcases rl with _ | ⟨r0, rl'⟩
    · exact absurd rfl hne
    · simp [geojson_to_shrunk_polygon_wkt, _shrink_polygon_rings, pv, PyList.ofList, hf]
  · intro hf m
    exact NotIA_shrunk_wkt g pol f hf m

/-- Witness for C7 on the concrete square polygon: factor 0 raises
`InvalidArgument`; factor 2 does not. -/
theorem claim_C7_witness :
    geojson_to_shrunk_polygon_wkt geomC1 "first" 0 =
      .error (.invalidArgument "shrink_factor must be > 0") ∧
    geojson_to_shrunk_polygon_wkt geomC1 "first" 2 ≠
      .error (.invalidArgument "shrink_factor must be > 0") := by
  have hv : StructValidPolygon geomC1 := by
    refine ⟨rfl, [pv ringC1], rfl, by simp, ?_⟩
    intro r hr
    rw [List.mem_singleton] at hr
    subst hr
    refine ⟨ringC1, rfl, by decide, ?_⟩
    intro p hp
    simp only [ringC1, List.mem_cons, List.not_mem_nil, or_false] at hp
    rcases hp with h | h | h | h | h <;> subst h
    · exact ⟨.int 0, .int 0, [], rfl, trivial, trivial⟩
    · exact ⟨.int 4, .int 0, [], rfl, trivial, trivial⟩
    · exact ⟨.int 4, .int 4, [], rfl, trivial, trivial⟩
    · exact ⟨.int 0, .int 4, [], rfl, trivial, trivial⟩
    · exact ⟨.int 0, .int 0, [], rfl, trivial, trivial⟩
  exact ⟨(claim_C7_shrink_factor_domain geomC1 "first" 0 hv).1 (by norm_num),
         (claim_C7_shrink_factor_domain geomC1 "first" 2 hv).2 (by norm_num) _⟩

/-- Output prefix discrimination: a string of the shape the converters build
begins with `"POLYGON Z"` iff its dimension field is `" Z"`. -/
theorem polygonZ_prefix_iff (d b : String) (hd : d = "" ∨ d = " Z") :
    ("POLYGON Z".data <+: ("POLYGON" ++ d ++ " (" ++ b ++ ")").data) ↔ d = " Z" := by
  rcases hd with hd | hd <;> subst hd
  · simp only [String.data_append]
    constructor
    · intro hpre
      rw [List.prefix_iff_eq_take] at hpre
      have hsplit : "POLYGON".data ++ "".data ++ " (".data ++ b.data ++ ")".data =
          "POLYGON (".data ++ (b.data ++ ")".data) := by
        simp
      rw [hsplit] at hpre
      have hlen : ("POLYGON Z".data).length = ("POLYGON (".data).length := by decide
      rw [hlen, List.take_left] at hpre
      exact absurd hpre (by decide)
    · intro h
      exact absurd h (by decide)
  · simp only [String.data_append]
    constructor
    · intro _
      trivial
    · intro _
      have hsplit : "POLYGON".data ++ " Z".data ++ " (".data ++ b.data ++ ")".data =
          "POLYGON Z".data ++ (" (".data ++ b.data ++ ")".data) := by
        simp
      rw [hsplit]
      exact List.prefix_append _ _

theorem polygon_wkt_prefix_3d (g : Geometry) (pol : String) (s : String)
    (h : geojson_to_polygon_wkt g pol = .ok s) :
    ∃ r, chosenRings g = some r ∧
      ("POLYGON Z".data <+: s.data ↔ _is_3d_coords r = true) := by
  unfold geojson_to_polygon_wkt at h
  split at h
  · exact absurd h (by simp)
  case _ gtype heq =>
    by_cases h1 : gtype = ""
    · rw [if_pos h1] at h
      exact absurd h (by simp)
    · rw [if_neg h1] at h
      by_cases h2 : gtype = "Polygon"
      · subst h2
        rw [if_pos rfl] at h
        split at h
        case _ rings hco =>
          dsimp only at h
          rcases hm : mapE _fmt_ring rings.toList with e | parts <;> rw [hm] at h
          · exact absurd h (by simp)
          · injection h with h
            refine ⟨.list rings, ?_, ?_⟩
            · unfold chosenRings
              rw [heq, hco]
              simp
            · subst h
              have hiff := polygonZ_prefix_iff
                (if _is_3d_coords (.list rings) = true then " Z" else "")
                (String.intercalate ", " parts) (by split <;> simp)
              rw [hiff]
              by_cases h3 : _is_3d_coords (.list rings) = true <;> simp [h3]
        case _ hx => exact absurd h (by simp)
      · rw [if_neg h2] at h
        by_cases h3 : gtype = "MultiPolygon"
        · subst h3
          rw [if_pos rfl] at h
          split at h
          case _ x chosenV polysRest hco =>
            split at h
            · exact absurd h (by simp)
            · split at h
              case _ chosenPL _hif =>
                dsimp only at h
                rcases hm : mapE _fmt_ring chosenPL.toList with e | parts <;> rw [hm] at h
                · exact absurd h (by simp)
                · injection h with h
                  refine ⟨.list chosenPL, ?_, ?_⟩
                  · unfold chosenRings
                    rw [heq, hco]
                    simp
                  · subst h
                    have hiff := polygonZ_prefix_iff
                      (if _is_3d_coords (.list chosenPL) = true then " Z" else "")
                      (String.intercalate ", " parts) (by split <;> simp)
                    rw [hiff]
                    by_cases h4 : _is_3d_coords (.list chosenPL) = true <;> simp [h4]
              case _ => exact absurd h (by simp)
          case _ => exact absurd h (by simp)
        · rw [if_neg h3] at h
          exact absurd h (by simp)

theorem shrunk_wkt_prefix_3d (g : Geometry) (pol : String) (f : ℚ) (s : String)
    (h : geojson_to_shrunk_polygon_wkt g pol f = .ok s) :
    ∃ out, shrunkSerializedRings g f = some out ∧
      ("POLYGON Z".data <+: s.data ↔ _is_3d_coords (pv out) = true) := by
  unfold geojson_to_shrunk_polygon_wkt at h
  split at h
  · exact absurd h (by simp)
  case _ gtype heq =>
    by_cases h1 : gtype = ""
    · rw [if_pos h1] at h
      exact absurd h (by simp)
    · rw [if_neg h1] at h
      by_cases h2 : gtype = "Polygon"
      · subst h2
        rw [if_pos rfl] at h
        rcases hs : _shrink_polygon_rings g.coordinates f with e | shrunk <;> rw [hs] at h
        · exact absurd h (by simp)
        · dsimp only at h
          rcases hm : mapE _fmt_ring shrunk with e | parts <;> rw [hm] at h
          · exact absurd h (by simp)
          · injection h with h
            refine ⟨shrunk, ?_, ?_⟩
            · unfold shrunkSerializedRings chosenRings
              rw [heq]
              simp [hs, Except.toOption]
            · subst h
              have hiff := polygonZ_prefix_iff
                (if _is_3d_coords (pv shrunk) = true then " Z" else "")
                (String.intercalate ", " parts) (by split <;> simp)
              rw [hiff]
              by_cases h3 : _is_3d_coords (pv shrunk) = true <;> simp [h3]
      · rw [if_neg h2] at h
        by_cases h3 : gtype = "MultiPolygon"
        · subst h3
          rw [if_pos rfl] at h
          split at h
          case _ x chosenV polysRest hco =>
            split at h
            · exact absurd h (by simp)
            · split at h
              case _ chosenPL _hif =>
                rcases hs : _shrink_polygon_rings (PyVal.list chosenPL) f
                    with e | shrunk <;> rw [hs] at h
                · exact absurd h (by simp)
                · dsimp only at h
                  rcases hm : mapE _fmt_ring shrunk with e | parts <;> rw [hm] at h
                  · exact absurd h (by simp)
                  · injection h with h
                    refine ⟨shrunk, ?_, ?_⟩
                    · unfold shrunkSerializedRings chosenRings
                      rw [heq, hco]
                      simp [hs, Except.toOption]
                    · subst h
                      have hiff := polygonZ_prefix_iff
                        (if _is_3d_coords (pv shrunk) = true then " Z" else "")
                        (String.intercalate ", " parts) (by split <;> simp)
                      rw [hiff]
                      by_cases h4 : _is_3d_coords (pv shrunk) = true <;> simp [h4]
              case _ => exact absurd h (by simp)
          case _ => exact absurd h (by simp)
        · rw [if_neg h3] at h
          exact absurd h (by simp)

/-- C5: dimensionality detection.  Whenever either converter succeeds, the
output string begins with `"POLYGON Z"` iff `_is_3d_coords` finds a
coordinate with 3 or more components among the rings being serialized
(the chosen polygon part's rings for `geojson_to_polygon_wkt`; the shrunk
rings for `geojson_to_shrunk_polygon_wkt`); otherwise it begins with plain
`"POLYGON"` (and therefore not with `"POLYGON Z"`). -/
theorem claim_C5_dimensionality (g : Geometry) (pol : String) (f : ℚ) (s : String) :
    (geojson_to_polygon_wkt g pol = .ok s →
      ∃ r, chosenRings g = some r ∧
        ("POLYGON Z".data <+: s.data ↔ _is_3d_coords r = true)) ∧
    (geojson_to_shrunk_polygon_wkt g pol f = .ok s →
      ∃ out, shrunkSerializedRings g f = some out ∧
        ("POLYGON Z".data <+: s.data ↔ _is_3d_coords (pv out) = true)) :=
  ⟨polygon_wkt_prefix_3d g pol s, shrunk_wkt_prefix_3d g pol f s⟩

/-- Witness for C5 on the concrete square (2D: no `Z` prefix), for both
converters. -/
theorem claim_C5_witness :
    (∃ r, chosenRings geomC1 = some r ∧
      ("POLYGON Z".data <+: "POLYGON ((0 0, 4 0, 4 4, 0 4, 0 0))".data ↔
        _is_3d_coords r = true)) ∧
    (∃ out, shrunkSerializedRings geomC1 2 = some out ∧
      ("POLYGON Z".data <+: "POLYGON ((1 1, 3 1, 3 3, 1 3, 1 1))".data ↔
        _is_3d_coords (pv out) = true)) :=
  ⟨(claim_C5_dimensionality geomC1 "first" 2 "POLYGON ((0 0, 4 0, 4 4, 0 4, 0 0))").1 (by rfl),
   (claim_C5_dimensionality geomC1 "first" 2 "POLYGON ((1 1, 3 1, 3 3, 1 3, 1 1))").2 (by rfl)⟩

/-- Serialization of embedded numeric data. -/
theorem mapE_comp_map_ok {α β γ : Type} {f : β → Except GeoError γ} {h : α → β}
    {g : α → γ} : ∀ {l : List α}, (∀ a ∈ l, f (h a) = .ok (g a)) →
      mapE f (l.map h) = .ok (l.map g)
  | [], _ => rfl
  | a :: l, hh => by
    have ha := hh a (List.mem_cons_self a l)
    have hl := mapE_comp_map_ok (f := f) (h := h) (g := g) (l := l)
      (fun b hb => hh b (List.mem_cons_of_mem a hb))
    simp [mapE, List.map_cons, ha, hl]

theorem fmt_coord_embed (c : List PyNum) : _fmt_coord (embedNumCoord c) = .ok (coordWkt c) := by
  unfold _fmt_coord embedNumCoord pv
  simp only [PyList.toList_ofList]
  have h1 : List.take 3 (List.map PyVal.num c) = (c.take 3).map PyVal.num := by
    rw [List.map_take]
  rw [h1, mapE_comp_map_ok (f := fmtNumV) (h := PyVal.num) (g := _fmt_num) (fun a _ => rfl)]
  rfl

theorem fmt_ring_embed (r : List (List PyNum)) :
    _fmt_ring (embedNumRing r) = .ok (ringWkt r) := by
  unfold _fmt_ring _fmt_coord_list embedNumRing pv
  simp only [PyList.toList_ofList]
  rw [mapE_comp_map_ok (f := _fmt_coord) (h := embedNumCoord) (g := coordWkt)
    (fun a _ => fmt_coord_embed a)]
  rfl

/-- C9 (amended): for a geometry of type `"Polygon"`,
`geojson_to_polygon_wkt` requires `coordinates` to be a sequence (list):
it fails with `InvalidGeometry` when `coordinates` is not a list, and it
succeeds on every — possibly empty — list of numeric rings, serializing each
ring directly, in input order, with no reordering, closing or reversal
(`ringWkt` is the direct in-order serialization).  The original claim's
non-emptiness requirement does not hold (see the counterexample). -/
theorem claim_C9_amended :
    (∀ (g : Geometry) (pol : String), g.gtype = some "Polygon" →
      (∀ pl : PyList, g.coordinates ≠ .list pl) →
      geojson_to_polygon_wkt g pol =
        .error (.invalidGeometry "Polygon 'coordinates' must be a list of rings")) ∧
    (∀ (R : List (List (List PyNum))) (pol : String),
      geojson_to_polygon_wkt ⟨some "Polygon", embedNumRings R⟩ pol =
        .ok ("POLYGON" ++ (if _is_3d_coords (embedNumRings R) then " Z" else "") ++
          " (" ++ String.intercalate ", " (R.map ringWkt) ++ ")")) := by
  constructor
  · intro g pol hty hnl
    rcases g with ⟨gt, coords⟩
    simp only at hty
    subst hty
    rcases coords with n | pl | _
    · simp [geojson_to_polygon_wkt]
    · exact absurd rfl (hnl pl)
    · simp [geojson_to_polygon_wkt]
  · intro R pol
    have hco : embedNumRings R = .list (.ofList (R.map embedNumRing)) := rfl
    simp only [geojson_to_polygon_wkt, hco]
    simp only [PyList.toList_ofList]
    rw [mapE_comp_map_ok (f := _fmt_ring) (h := embedNumRing) (g := ringWkt)
      (fun a _ => fmt_ring_embed a)]
    simp only [← hco]
    rfl

/-- Witness for C9 (amended): `None` coordinates fail; a one-ring polygon
serializes in order. -/
theorem claim_C9_witness :
    geojson_to_polygon_wkt ⟨some "Polygon", .pynone⟩ "first" =
      .error (.invalidGeometry "Polygon 'coordinates' must be a list of rings") ∧
    geojson_to_polygon_wkt ⟨some "Polygon",
        embedNumRings [[[PyNum.int 1, PyNum.int 2]]]⟩ "first" =
      .ok ("POLYGON" ++
        (if _is_3d_coords (embedNumRings [[[PyNum.int 1, PyNum.int 2]]]) then " Z" else "") ++
        " (" ++ String.intercalate ", " ([[[PyNum.int 1, PyNum.int 2]]].map ringWkt) ++ ")") :=
  ⟨claim_C9_amended.1 ⟨some "Polygon", .pynone⟩ "first" rfl (fun pl h => by cases h),
   claim_C9_amended.2 [[[PyNum.int 1, PyNum.int 2]]] "first"⟩

/-! ## The embedded centroid computes the spec's shoelace centroid -/

theorem pyGet0_embed (c : Coord) : pyGet c.toPyVal 0 = .ok (.num c.x) := by
  simp [pyGet, Coord.toPyVal, pv, PyList.ofList, PyList.toList]

theorem pyGet1_embed (c : Coord) : pyGet c.toPyVal 1 = .ok (.num c.y) := by
  simp [pyGet, Coord.toPyVal, pv, PyList.ofList, PyList.toList]

theorem centroid_xyv_embed (r : List Coord) :
    mapE (fun p => do
        let x ← pyGet p 0
        let y ← pyGet p 1
        pure (x, y)) (r.map Coord.toPyVal) =
      .ok (r.map fun c => (PyVal.num c.x, PyVal.num c.y)) := by
  refine mapE_comp_map_ok fun c _ => ?_
  simp [pyGet0_embed, pyGet1_embed, bind, Except.bind, pure, Except.pure]

theorem centroid_xys_embed (r : List Coord) :
    mapE (fun xy : PyVal × PyVal => do
        let x ← asNum xy.1
        let y ← asNum xy.2
        pure (x, y)) (r.map fun c => (PyVal.num c.x, PyVal.num c.y)) =
      .ok (r.map fun c => (c.x.toFrac, c.y.toFrac)) := by
  refine mapE_comp_map_ok fun c _ => ?_
  simp [asNum, bind, Except.bind, pure, Except.pure]

theorem zip_tail_embed (r : List Coord) :
    ((r.map fun c => (c.x.toFrac, c.y.toFrac)).zip
      ((r.map fun c => (c.x.toFrac, c.y.toFrac)).tail)) =
    (r.zip r.tail).map
      (Prod.map (fun c => (c.x.toFrac, c.y.toFrac)) fun c => (c.x.toFrac, c.y.toFrac)) := by
  rw [← List.map_tail, List.zip_map]

theorem crossSum_embed (r : List Coord) (hwf : ∀ c ∈ r, c.WF) :
    (((r.zip r.tail).map
        (Prod.map (fun c => (c.x.toFrac, c.y.toFrac)) fun c =>
          (c.x.toFrac, c.y.toFrac))).map crossQ).sum = 2 * shoelaceA r := by
  rw [List.map_map]
  have hcg : (r.zip r.tail).map
      (crossQ ∘ Prod.map (fun c => (c.x.toFrac, c.y.toFrac)) fun c => (c.x.toFrac, c.y.toFrac)) =
      (r.zip r.tail).map (fun p : Coord × Coord => p.1.xq * p.2.yq - p.2.xq * p.1.yq) := by
    refine List.map_congr_left fun p hp => ?_
    obtain ⟨hp1, hp2⟩ := List.of_mem_zip hp
    have h1 := hwf p.1 hp1
    have h2 := hwf p.2 (List.mem_of_mem_tail hp2)
    simp only [Function.comp_apply, crossQ, Prod.map_fst, Prod.map_snd]
    rw [PyNum.toRat_toFrac h1.1, PyNum.toRat_toFrac h2.2,
      PyNum.toRat_toFrac h2.1, PyNum.toRat_toFrac h1.2]
    rfl
  rw [hcg, sum_map_zip_tail _ cDefault r]
  unfold shoelaceA
  ring

theorem cxSum_embed (r : List Coord) (hwf : ∀ c ∈ r, c.WF) :
    (((r.zip r.tail).map
        (Prod.map (fun c => (c.x.toFrac, c.y.toFrac)) fun c =>
          (c.x.toFrac, c.y.toFrac))).map cxQ).sum = shoelaceSx r := by
  rw [List.map_map]
  have hcg : (r.zip r.tail).map
      (cxQ ∘ Prod.map (fun c => (c.x.toFrac, c.y.toFrac)) fun c => (c.x.toFrac, c.y.toFrac)) =
      (r.zip r.tail).map (fun p : Coord × Coord =>
        (p.1.xq + p.2.xq) * (p.1.xq * p.2.yq - p.2.xq * p.1.yq)) := by
    refine List.map_congr_left fun p hp => ?_
    obtain ⟨hp1, hp2⟩ := List.of_mem_zip hp
    have h1 := hwf p.1 hp1
    have h2 := hwf p.2 (List.mem_of_mem_tail hp2)
    simp only [Function.comp_apply, cxQ, crossQ, Prod.map_fst, Prod.map_snd]
    rw [PyNum.toRat_toFrac h1.1, PyNum.toRat_toFrac h2.2,
      PyNum.toRat_toFrac h2.1, PyNum.toRat_toFrac h1.2]
    rfl
  rw [hcg, sum_map_zip_tail _ cDefault r]
  unfold shoelaceSx
  rfl

theorem cySum_embed (r : List Coord) (hwf : ∀ c ∈ r, c.WF) :
    (((r.zip r.tail).map
        (Prod.map (fun c => (c.x.toFrac, c.y.toFrac)) fun c =>
          (c.x.toFrac, c.y.toFrac))).map cyQ).sum = shoelaceSy r := by
  rw [List.map_map]
  have hcg : (r.zip r.tail).map
      (cyQ ∘ Prod.map (fun c => (c.x.toFrac, c.y.toFrac)) fun c => (c.x.toFrac, c.y.toFrac)) =
      (r.zip r.tail).map (fun p : Coord × Coord =>
        (p.1.yq + p.2.yq) * (p.1.xq * p.2.yq - p.2.xq * p.1.yq)) := by
    refine List.map_congr_left fun p hp => ?_
    obtain ⟨hp1, hp2⟩ := List.of_mem_zip hp
    have h1 := hwf p.1 hp1
    have h2 := hwf p.2 (List.mem_of_mem_tail hp2)
    simp only [Function.comp_apply, cyQ, crossQ, Prod.map_fst, Prod.map_snd]
    rw [PyNum.toRat_toFrac h1.1, PyNum.toRat_toFrac h2.2,
      PyNum.toRat_toFrac h2.1, PyNum.toRat_toFrac h1.2]
    rfl
  rw [hcg, sum_map_zip_tail _ cDefault r]
  unfold shoelaceSy
  rfl

theorem fracHalf_toRat : fracHalf.toRat = 1 / 2 := by norm_num [fracHalf, Frac.toRat]

theorem fracHalf_pos : fracHalf.Pos := by norm_num [fracHalf, Frac.Pos]

theorem fracSix_toRat : fracSix.toRat = 6 := by norm_num [fracSix, Frac.toRat]

theorem fracSix_pos : fracSix.Pos := by norm_num [fracSix, Frac.Pos]

theorem eps15_toRat : eps15.toRat = 1 / 10 ^ 15 := by norm_num [eps15, Frac.toRat]

theorem eps15_pos : eps15.Pos := by norm_num [eps15, Frac.Pos]

theorem Frac.num_ne_zero_of_toRat {a : Frac} (h : a.toRat ≠ 0) : a.num ≠ 0 := by
  intro h0
  exact h (by simp [Frac.toRat, h0])

theorem centroid_embed_spec (r : List Coord) (hwf : ∀ c ∈ r, c.WF) (h3 : 3 ≤ r.length) :
    ∃ cx cy : Frac, _outer_ring_centroid_xy (r.map Coord.toPyVal) = .ok (cx, cy) ∧
      cx.Pos ∧ cy.Pos ∧ cx.toRat = (specCentroid r).1 ∧ cy.toRat = (specCentroid r).2 := by
  unfold _outer_ring_centroid_xy
  rw [List.length_map]
  rw [if_neg (by omega : ¬r.length < 3)]
  simp only [centroid_xyv_embed r, centroid_xys_embed r, zip_tail_embed r]
  have hps : ∀ p ∈ (r.zip r.tail).map
      (Prod.map (fun c => (c.x.toFrac, c.y.toFrac)) fun c => (c.x.toFrac, c.y.toFrac)),
      PairsPos p := by
    intro p hp
    rw [List.mem_map] at hp
    obtain ⟨q, hq, rfl⟩ := hp
    obtain ⟨hq1, hq2⟩ := List.of_mem_zip hq
    have h1 := hwf q.1 hq1
    have h2 := hwf q.2 (List.mem_of_mem_tail hq2)
    exact ⟨PyNum.toFrac_pos h1.1, PyNum.toFrac_pos h1.2,
      PyNum.toFrac_pos h2.1, PyNum.toFrac_pos h2.2⟩
  obtain ⟨⟨hA, hSx, hSy⟩, eA, eSx, eSy⟩ :=
    foldl_shoelaceStep _ (⟨0, 1⟩, ⟨0, 1⟩, ⟨0, 1⟩) hps
      (by norm_num [Frac.Pos]) (by norm_num [Frac.Pos]) (by norm_num [Frac.Pos])
  set acc := ((r.zip r.tail).map
      (Prod.map (fun c => (c.x.toFrac, c.y.toFrac)) fun c =>
        (c.x.toFrac, c.y.toFrac))).foldl shoelaceStep (⟨0, 1⟩, ⟨0, 1⟩, ⟨0, 1⟩) with hacc
  have hzero : (⟨0, 1⟩ : Frac).toRat = 0 := by norm_num [Frac.toRat]
  have hApos : (acc.1.mul fracHalf).Pos := Frac.pos_mul hA fracHalf_pos
  have hAtoRat : (acc.1.mul fracHalf).toRat = shoelaceA r := by
    rw [Frac.toRat_mul, eA, crossSum_embed r hwf, fracHalf_toRat, hzero]
    ring
  have hcondIff : ((acc.1.mul fracHalf).fabs.blt eps15 = true) ↔
      |shoelaceA r| < 1 / 10 ^ 15 := by
    rw [Frac.blt_iff (Frac.pos_fabs hApos) eps15_pos, Frac.toRat_fabs hApos,
      hAtoRat, eps15_toRat]
  by_cases hdeg : |shoelaceA r| < 1 / 10 ^ 15
  · rw [if_pos (hcondIff.mpr hdeg)]
    have hxs : ∀ x ∈ ((r.map fun c => (c.x.toFrac, c.y.toFrac)).map Prod.fst), x.Pos := by
      intro x hx
      rw [List.map_map, List.mem_map] at hx
      obtain ⟨c, hc, rfl⟩ := hx
      exact PyNum.toFrac_pos (hwf c hc).1
    have hys : ∀ y ∈ ((r.map fun c => (c.x.toFrac, c.y.toFrac)).map Prod.snd), y.Pos := by
      intro y hy
      rw [List.map_map, List.mem_map] at hy
      obtain ⟨c, hc, rfl⟩ := hy
      exact PyNum.toFrac_pos (hwf c hc).2
    obtain ⟨hxsPos, hxsSum⟩ := sumFrac_spec hxs
    obtain ⟨hysPos, hysSum⟩ := sumFrac_spec hys
    have hlen2 : ((r.map fun c => (c.x.toFrac, c.y.toFrac)).map Prod.fst).length = r.length := by
      simp
    have hlen3 : ((r.map fun c => (c.x.toFrac, c.y.toFrac)).map Prod.snd).length = r.length := by
      simp
    have hnx : (Frac.ofInt
        ((((r.map fun c => (c.x.toFrac, c.y.toFrac)).map Prod.fst).length : Nat) : ℤ)).num ≠ 0 := by
      simp only [Frac.ofInt, hlen2]
      exact_mod_cast (by omega : r.length ≠ 0)
    have hny : (Frac.ofInt
        ((((r.map fun c => (c.x.toFrac, c.y.toFrac)).map Prod.snd).length : Nat) : ℤ)).num ≠ 0 := by
      simp only [Frac.ofInt, hlen3]
      exact_mod_cast (by omega : r.length ≠ 0)
    refine ⟨_, _, rfl, ?_, ?_, ?_, ?_⟩
    · exact Frac.pos_div hxsPos (Frac.pos_ofInt _) hnx
    · exact Frac.pos_div hysPos (Frac.pos_ofInt _) hny
    · rw [Frac.toRat_div, hxsSum, Frac.toRat_ofInt]
      unfold specCentroid
      rw [if_pos hdeg]
      show _ = meanX r
      unfold meanX
      rw [hlen2]
      congr 1
      rw [List.map_map, List.map_map]
      exact congrArg List.sum
        (List.map_congr_left fun c hc => PyNum.toRat_toFrac (hwf c hc).1)
    · rw [Frac.toRat_div, hysSum, Frac.toRat_ofInt]
      unfold specCentroid
      rw [if_pos hdeg]
      show _ = meanY r
      unfold meanY
      rw [hlen3]
      congr 1
      rw [List.map_map, List.map_map]
      exact congrArg List.sum
        (List.map_congr_left fun c hc => PyNum.toRat_toFrac (hwf c hc).2)
  · rw [if_neg fun hcond => hdeg (hcondIff.mp hcond)]
    have hAne : (acc.1.mul fracHalf).toRat ≠ 0 := by
      rw [hAtoRat]
      intro h0
      apply hdeg
      rw [h0]
      norm_num
    have hAnum : (fracSix.mul (acc.1.mul fracHalf)).num ≠ 0 := by
      have h6 : (fracSix.mul (acc.1.mul fracHalf)).num = 6 * (acc.1.mul fracHalf).num := rfl
      rw [h6]
      have := Frac.num_ne_zero_of_toRat hAne
      omega
    have hdenom : (fracSix.mul (acc.1.mul fracHalf)).toRat = 6 * shoelaceA r := by
      rw [Frac.toRat_mul, fracSix_toRat, hAtoRat]
    refine ⟨_, _, rfl, ?_, ?_, ?_, ?_⟩
    · exact Frac.pos_div hSx (Frac.pos_mul fracSix_pos hApos) hAnum
    · exact Frac.pos_div hSy (Frac.pos_mul fracSix_pos hApos) hAnum
    · rw [Frac.toRat_div, hdenom, eSx, cxSum_embed r hwf, hzero]
      unfold specCentroid
      rw [if_neg hdeg]
      show _ = shoelaceSx r / (6 * shoelaceA r)
      rw [zero_add]
    · rw [Frac.toRat_div, hdenom, eSy, cySum_embed r hwf, hzero]
      unfold specCentroid
      rw [if_neg hdeg]
      show _ = shoelaceSy r / (6 * shoelaceA r)
      rw [zero_add]

/-- C2: for every outer ring of at least 3 well-formed numeric coordinates,
`_outer_ring_centroid_xy` (the centroid computation of
`geojson_to_shrunk_polygon_wkt`) returns exactly the centroid prescribed by
the spec: the area-weighted shoelace formula summed over consecutive pairs
`(i, i+1)` for `i` from 0 to `n-2` only (`shoelaceA`/`shoelaceSx`/
`shoelaceSy` are indexed `Finset.range (n-1)` sums with no synthetic
wrap-around edge), with the arithmetic-mean fallback when
`|A| < 1e-15` (`specCentroid`). -/
theorem claim_C2_shoelace_centroid (r : List Coord) (hwf : ∀ c ∈ r, c.WF)
    (h3 : 3 ≤ r.length) :
    ∃ cx cy : Frac, _outer_ring_centroid_xy (r.map Coord.toPyVal) = .ok (cx, cy) ∧
      (cx.toRat, cy.toRat) = specCentroid r := by
  obtain ⟨cx, cy, hok, _, _, hx, hy⟩ := centroid_embed_spec r hwf h3
  exact ⟨cx, cy, hok, by rw [hx, hy]⟩

/-- Witness for C2: the square (non-degenerate) and three collinear points
(degenerate fallback). -/
theorem claim_C2_witness :
    ((∀ c ∈ coordsC1, c.WF) ∧ 3 ≤ coordsC1.length ∧
      (∃ cx cy : Frac, _outer_ring_centroid_xy (coordsC1.map Coord.toPyVal) = .ok (cx, cy) ∧
        (cx.toRat, cy.toRat) = specCentroid coordsC1)) ∧
    ((∀ c ∈ coordsCol, c.WF) ∧ 3 ≤ coordsCol.length ∧
      (∃ cx cy : Frac, _outer_ring_centroid_xy (coordsCol.map Coord.toPyVal) = .ok (cx, cy) ∧
        (cx.toRat, cy.toRat) = specCentroid coordsCol)) :=
  ⟨⟨by decide, by decide,
    claim_C2_shoelace_centroid coordsC1 (by decide) (by decide)⟩,
   ⟨by decide, by decide,
    claim_C2_shoelace_centroid coordsCol (by decide) (by decide)⟩⟩

theorem scale_coord_embed (cx cy s : Frac) (c : Coord) :
    _scale_coord cx cy s c.toPyVal =
      .ok (scaledShape c (cx.add (s.mul (c.x.toFrac.sub cx)))
        (cy.add (s.mul (c.y.toFrac.sub cy)))) := by
  rcases c with ⟨x, y, rest⟩
  rcases rest with _ | ⟨z, t⟩
  · simp [_scale_coord, Coord.toPyVal, pv, PyList.ofList, asNum, scaledShape]
  · cases z <;>
      simp [_scale_coord, Coord.toPyVal, pv, PyList.ofList, asNum, scaledShape]

theorem scaledShape_seam {c0 cn : Coord} (h : c0.rest.head? = cn.rest.head?)
    (a b : Frac) : scaledShape c0 a b = scaledShape cn a b := by
  unfold scaledShape
  rcases hc0 : c0.rest with _ | ⟨z0, t0⟩ <;> rcases hcn : cn.rest with _ | ⟨zn, tn⟩ <;>
    rw [hc0, hcn] at h
  · exact absurd h (by simp)
  · exact absurd h (by simp)
  · rw [List.head?_cons, List.head?_cons] at h
    injection h with h
    subst h
    cases z0 <;> rfl

theorem scaled_x_toRat {cx s : Frac} (hcx : cx.Pos) (hs : s.Pos) {n : PyNum} (hn : n.WF) :
    (cx.add (s.mul (n.toFrac.sub cx))).toRat = cx.toRat + s.toRat * (n.toQ - cx.toRat) := by
  rw [Frac.toRat_add hcx (Frac.pos_mul hs (Frac.pos_sub (PyNum.toFrac_pos hn) hcx)),
    Frac.toRat_mul, Frac.toRat_sub (PyNum.toFrac_pos hn) hcx, PyNum.toRat_toFrac hn]

theorem closedXY_embed_iff {c0 cn : Coord} (h0 : c0.WF) (hn : cn.WF) :
    closedXY c0.toPyVal cn.toPyVal = true ↔ (c0.xq = cn.xq ∧ c0.yq = cn.yq) := by
  rcases c0 with ⟨x0, y0, r0⟩
  rcases cn with ⟨xn, yn, rn⟩
  show (pyEq (.num x0) (.num xn) && pyEq (.num y0) (.num yn)) = true ↔ _
  rw [Bool.and_eq_true, pyEq_num_iff h0.1 hn.1, pyEq_num_iff h0.2 hn.2]
  exact Iff.rfl

theorem scale_ring_embed (r : List Coord) (cx cy s : Frac)
    (hcx : cx.Pos) (hcy : cy.Pos) (hs : s.Pos)
    (hwf : ∀ c ∈ r, c.WF) (hseam : SeamOK r) :
    ∃ out, _scale_ring_about_xy_centroid (r.map Coord.toPyVal) cx cy s = .ok out ∧
      out.length = r.length ∧
      ∀ (k : Nat) (c : Coord), r[k]? = some c → ∃ xs ys : Frac,
        xs.toRat = cx.toRat + s.toRat * (c.xq - cx.toRat) ∧
        ys.toRat = cy.toRat + s.toRat * (c.yq - cy.toRat) ∧
        out[k]? = some (scaledShape c xs ys) := by
  have hmap : mapE (_scale_coord cx cy s) (r.map Coord.toPyVal) =
      .ok (r.map fun c => scaledShape c (cx.add (s.mul (c.x.toFrac.sub cx)))
        (cy.add (s.mul (c.y.toFrac.sub cy)))) :=
    mapE_comp_map_ok fun c _ => scale_coord_embed cx cy s c
  have hplain : ∀ (k : Nat) (c : Coord), r[k]? = some c → ∃ xs ys : Frac,
      xs.toRat = cx.toRat + s.toRat * (c.xq - cx.toRat) ∧
      ys.toRat = cy.toRat + s.toRat * (c.yq - cy.toRat) ∧
      (r.map fun c => scaledShape c (cx.add (s.mul (c.x.toFrac.sub cx)))
        (cy.add (s.mul (c.y.toFrac.sub cy))))[k]? = some (scaledShape c xs ys) := by
    intro k c hk
    have hcw := hwf c (List.getElem?_mem hk)
    refine ⟨_, _, scaled_x_toRat hcx hs hcw.1, scaled_x_toRat hcy hs hcw.2, ?_⟩
    rw [List.getElem?_map, hk]
    rfl
  unfold _scale_ring_about_xy_centroid
  rw [hmap]
  dsimp only
  rw [List.length_map]
  by_cases h2 : 2 ≤ r.length
  · rw [if_pos h2]
    rcases hr0 : r.head? with _ | c0
    · rw [List.head?_eq_none_iff] at hr0
      subst hr0
      simp at h2
    · rcases hrn : r.getLast? with _ | cn
      · rw [List.getLast?_eq_none_iff] at hrn
        subst hrn
        exact absurd hr0 (by simp)
      · rw [List.head?_map, List.getLast?_map, List.head?_map, hr0, hrn]
        simp only [Option.map_some']
        by_cases hcl : closedXY c0.toPyVal cn.toPyVal = true
        · rw [if_pos hcl]
          have hc0w := hwf c0 (List.mem_of_mem_head? hr0)
          have hcnw := hwf cn (List.mem_of_mem_getLast? hrn)
          obtain ⟨hxq, hyq⟩ := (closedXY_embed_iff hc0w hcnw).mp hcl
          have hrest := hseam c0 cn hr0 hrn hxq hyq
          refine ⟨_, rfl, by rw [List.length_set, List.length_map], ?_⟩
          intro k c hk
          by_cases hklast : k = r.length - 1
          · subst hklast
            have hcn2 : c = cn := by
              rw [List.getLast?_eq_getElem?] at hrn
              rw [hk] at hrn
              exact Option.some_inj.mp hrn
            subst hcn2
            refine ⟨cx.add (s.mul (c0.x.toFrac.sub cx)), cy.add (s.mul (c0.y.toFrac.sub cy)),
              ?_, ?_, ?_⟩
            · rw [scaled_x_toRat hcx hs hc0w.1]
              exact congrArg (fun t => cx.toRat + s.toRat * (t - cx.toRat)) hxq
            · rw [scaled_x_toRat hcy hs hc0w.2]
              exact congrArg (fun t => cy.toRat + s.toRat * (t - cy.toRat)) hyq
            · rw [show (r.map fun c => scaledShape c (cx.add (s.mul (c.x.toFrac.sub cx)))
                  (cy.add (s.mul (c.y.toFrac.sub cy)))).length - 1 = r.length - 1 by
                  rw [List.length_map]]
              rw [List.getElem?_set_self (by rw [List.length_map]; omega)]
              rw [scaledShape_seam hrest]
          · rw [show (r.map fun c => scaledShape c (cx.add (s.mul (c.x.toFrac.sub cx)))
                (cy.add (s.mul (c.y.toFrac.sub cy)))).length - 1 = r.length - 1 by
                rw [List.length_map]]
            rw [List.getElem?_set_ne (by omega)]
            exact hplain k c hk
        · rw [if_neg hcl]
          exact ⟨_, rfl, by rw [List.length_map], hplain⟩
  · rw [if_neg h2]
    exact ⟨_, rfl, by rw [List.length_map], hplain⟩

theorem PyList.length_ofList (l : List PyVal) : (PyList.ofList l).length = l.length := by
  rw [← PyList.length_toList, PyList.toList_ofList]

theorem mapE_ok_of_forall {α β : Type} {f : α → Except GeoError β} :
    ∀ {l : List α}, (∀ a ∈ l, ∃ b, f a = .ok b) → ∃ l', mapE f l = .ok l' := by
  intro l
  induction l with
  | nil => exact fun _ => ⟨[], rfl⟩
  | cons a l ih =>
    intro h
    obtain ⟨b, hb⟩ := h a (List.mem_cons_self a l)
    obtain ⟨bs, hbs⟩ := ih fun x hx => h x (List.mem_cons_of_mem a hx)
    exact ⟨b :: bs, by simp [mapE, hb, hbs]⟩

theorem sFrac_toRat (f : ℚ) :
    ((Frac.ofInt 1).div (Frac.ofRat f)).toRat = 1 / f := by
  rw [Frac.toRat_div, Frac.toRat_ofInt, Frac.toRat_ofRat]
  norm_num

theorem sFrac_pos (f : ℚ) (hf : 0 < f) : ((Frac.ofInt 1).div (Frac.ofRat f)).Pos := by
  refine Frac.pos_div (Frac.pos_ofInt 1) (Frac.pos_ofRat f) ?_
  show f.num ≠ 0
  exact Rat.num_ne_zero.mpr hf.ne'

/-- C3 (amended): with shrink factor `f > 0`, for a polygon whose rings are
numeric, well-formed, of length at least 3 and seam-compatible (an XY-closed
ring carries the same third component on its first and last coordinates),
`_shrink_polygon_rings` succeeds and maps every coordinate of every ring to
`x' = Cx + s(x - Cx)`, `y' = Cy + s(y - Cy)` with `s = 1/f` about the outer
ring's centroid `(Cx, Cy)`, the third component passing through unchanged. -/
theorem claim_C3_amended (R : List (List Coord)) (f : ℚ) (hf : 0 < f)
    (hwf : ∀ r ∈ R, ∀ c ∈ r, c.WF) (h3 : ∀ r ∈ R, 3 ≤ r.length)
    (hne : R ≠ []) (hseam : ∀ r ∈ R, SeamOK r) :
    ∃ (outer : List Coord) (cx cy : Frac), R.head? = some outer ∧
      _outer_ring_centroid_xy (outer.map Coord.toPyVal) = .ok (cx, cy) ∧
      ∃ out, _shrink_polygon_rings (embedRings R) f = .ok out ∧
        out.length = R.length ∧
        ∀ (j : Nat) (r : List Coord), R[j]? = some r →
          ∃ outRing : List PyVal, out[j]? = some (pv outRing) ∧
            outRing.length = r.length ∧
            ∀ (k : Nat) (c : Coord), r[k]? = some c → ∃ xs ys : Frac,
              xs.toRat = cx.toRat + (1 / f) * (c.xq - cx.toRat) ∧
              ys.toRat = cy.toRat + (1 / f) * (c.yq - cy.toRat) ∧
              outRing[k]? = some (scaledShape c xs ys) := by
  rcases R with _ | ⟨outer, Rt⟩
  · exact absurd rfl hne
  obtain ⟨cx, cy, hcent, hcxP, hcyP, _, _⟩ :=
    centroid_embed_spec outer (hwf outer (List.mem_cons_self _ _))
      (h3 outer (List.mem_cons_self _ _))
  refine ⟨outer, cx, cy, rfl, hcent, ?_⟩
  have hsP : ((Frac.ofInt 1).div (Frac.ofRat f)).Pos := sFrac_pos f hf
  have hsR := sFrac_toRat f
  -- the per-ring processor succeeds on every embedded ring
  have hper : ∀ r ∈ (outer :: Rt), ∃ outRing,
      _scale_ring_about_xy_centroid (r.map Coord.toPyVal) cx cy
        ((Frac.ofInt 1).div (Frac.ofRat f)) = .ok outRing ∧
      outRing.length = r.length ∧
      ∀ (k : Nat) (c : Coord), r[k]? = some c → ∃ xs ys : Frac,
        xs.toRat = cx.toRat + (1 / f) * (c.xq - cx.toRat) ∧
        ys.toRat = cy.toRat + (1 / f) * (c.yq - cy.toRat) ∧
        outRing[k]? = some (scaledShape c xs ys) := by
    intro r hr
    obtain ⟨outRing, hok, hlen, hpt⟩ :=
      scale_ring_embed r cx cy _ hcxP hcyP hsP (hwf r hr) (hseam r hr)
    refine ⟨outRing, hok, hlen, ?_⟩
    intro k c hk
    obtain ⟨xs, ys, hx, hy, ho⟩ := hpt k c hk
    exact ⟨xs, ys, by rw [hx, hsR], by rw [hy, hsR], ho⟩
  -- reduce `_shrink_polygon_rings` on the embedded polygon
  show ∃ out, _shrink_polygon_rings (pv ((outer :: Rt).map embedRing)) f = .ok out ∧ _
  simp only [pv, List.map_cons, PyList.ofList]
  simp only [_shrink_polygon_rings]
  rw [if_neg (not_le.mpr hf)]
  simp only [embedRing, pv]
  rw [PyList.length_ofList, List.length_map,
    if_neg (by have := h3 outer (List.mem_cons_self _ _); omega : ¬outer.length < 3),
    PyList.toList_ofList, hcent]
  have hlist : (PyList.cons (PyVal.list (PyList.ofList (outer.map Coord.toPyVal)))
      (PyList.ofList (Rt.map embedRing))).toList = (outer :: Rt).map embedRing := by
    simp [PyList.toList, PyList.toList_ofList, embedRing, pv]
  rw [hlist]
  have hcall : ∀ r ∈ (outer :: Rt), ∃ b,
      (match embedRing r with
        | PyVal.list ringPL =>
          if ringPL.length < 3 then
            Except.error (GeoError.invalidGeometry
              "Each ring must be a list of at least 3 coordinates")
          else
            match _scale_ring_about_xy_centroid ringPL.toList cx cy
                ((Frac.ofInt 1).div (Frac.ofRat f)) with
            | .error e => .error e
            | .ok out => .ok (pv out)
        | _ => Except.error (GeoError.invalidGeometry
            "Each ring must be a list of at least 3 coordinates")) = Except.ok b ∧
      ∃ outRing : List PyVal, b = pv outRing ∧ outRing.length = r.length ∧
        ∀ (k : Nat) (c : Coord), r[k]? = some c → ∃ xs ys : Frac,
          xs.toRat = cx.toRat + (1 / f) * (c.xq - cx.toRat) ∧
          ys.toRat = cy.toRat + (1 / f) * (c.yq - cy.toRat) ∧
          outRing[k]? = some (scaledShape c xs ys) := by
    intro r hr
    obtain ⟨outRing, hok, hlen, hpt⟩ := hper r hr
    refine ⟨pv outRing, ?_, outRing, rfl, hlen, hpt⟩
    simp only [embedRing, pv]
    rw [PyList.length_ofList, List.length_map,
      if_neg (by have := h3 r hr; omega : ¬r.length < 3),
      PyList.toList_ofList, hok]
  have hall : ∀ a ∈ (outer :: Rt).map embedRing, ∃ b,
      (fun ringV =>
        match ringV with
        | PyVal.list ringPL =>
          if ringPL.length < 3 then
            Except.error (GeoError.invalidGeometry
              "Each ring must be a list of at least 3 coordinates")
          else
            match _scale_ring_about_xy_centroid ringPL.toList cx cy
                ((Frac.ofInt 1).div (Frac.ofRat f)) with
            | .error e => .error e
            | .ok out => .ok (pv out)
        | _ => Except.error (GeoError.invalidGeometry
            "Each ring must be a list of at least 3 coordinates")) a = .ok b := by
    intro a ha
    obtain ⟨r, hr, rfl⟩ := List.mem_map.mp ha
    exact ⟨(hcall r hr).choose, (hcall r hr).choose_spec.1⟩
  obtain ⟨out, hmE⟩ := mapE_ok_of_forall hall
  refine ⟨out, hmE, ?_, ?_⟩
  · rw [mapE_ok_length hmE, List.length_map]
  · intro j r hj
    have hj2 : ((outer :: Rt).map embedRing)[j]? = some (embedRing r) := by
      rw [List.getElem?_map, hj]
      rfl
    obtain ⟨b, hbj, hfb⟩ := mapE_ok_getElem? hmE j _ hj2
    obtain ⟨b', hb', outRing, hbeq, hlen, hpt⟩ := hcall r (List.getElem?_mem hj)
    rw [hfb] at hb'
    cases hb'
    subst hbeq
    exact ⟨outRing, hbj, hlen, hpt⟩

/-- Witness for C3 (amended): the concrete square with factor `2`. -/
theorem claim_C3_witness :
    ∃ (outer : List Coord) (cx cy : Frac),
      ([coordsC1] : List (List Coord)).head? = some outer ∧
      _outer_ring_centroid_xy (outer.map Coord.toPyVal) = .ok (cx, cy) ∧
      ∃ out, _shrink_polygon_rings (embedRings [coordsC1]) 2 = .ok out ∧
        out.length = ([coordsC1] : List (List Coord)).length ∧
        ∀ (j : Nat) (r : List Coord), ([coordsC1] : List (List Coord))[j]? = some r →
          ∃ outRing : List PyVal, out[j]? = some (pv outRing) ∧
            outRing.length = r.length ∧
            ∀ (k : Nat) (c : Coord), r[k]? = some c → ∃ xs ys : Frac,
              xs.toRat = cx.toRat + (1 / 2) * (c.xq - cx.toRat) ∧
              ys.toRat = cy.toRat + (1 / 2) * (c.yq - cy.toRat) ∧
              outRing[k]? = some (scaledShape c xs ys) :=
  claim_C3_amended [coordsC1] 2 (by decide) (by decide) (by decide)
    (List.cons_ne_nil _ _)
    (by
      intro r hr
      simp only [List.mem_singleton] at hr
      subst hr
      intro c0 cn h0 hn _ _
      injection h0 with h0
      injection hn with hn
      subst h0
      subst hn
      rfl)

theorem pyGet_numCoord (c : List PyNum) (i : Nat) (h : i < c.length) :
    pyGet (embedNumCoord c) i = .ok (.num (c.get ⟨i, h⟩)) := by
  simp [pyGet, embedNumCoord, pv, PyList.toList_ofList, List.getElem?_map,
    List.getElem?_eq_getElem h]

theorem scale_coord_num_ok (cx cy s : Frac) (c : List PyNum) (h : 2 ≤ c.length) :
    ∃ v, _scale_coord cx cy s (embedNumCoord c) = .ok v := by
  rcases c with _ | ⟨x, c⟩
  · simp at h
  rcases c with _ | ⟨y, rest⟩
  · simp at h
  cases rest <;> exact ⟨_, rfl⟩

theorem scale_coord_num_err (cx cy s : Frac) (c : List PyNum) (h : c.length < 2) :
    _scale_coord cx cy s (embedNumCoord c) =
      .error (.invalidGeometry "Invalid coordinate; expected at least [x, y]") := by
  rcases c with _ | ⟨x, c⟩
  · rfl
  rcases c with _ | ⟨y, rest⟩
  · rfl
  simp only [List.length_cons] at h
  exact absurd h (by omega)

theorem mapE_error_uniform {α β : Type} {f : α → Except GeoError β} {e : GeoError} :
    ∀ {l : List α}, (∀ a ∈ l, (∃ b, f a = .ok b) ∨ f a = .error e) →
      ¬ (∀ a ∈ l, ∃ b, f a = .ok b) → mapE f l = .error e := by
  intro l
  induction l with
  | nil => intro _ hno; exact absurd (by simp) hno
  | cons a l ih =>
    intro hall hno
    rcases hall a (List.mem_cons_self a l) with ⟨b, hb⟩ | hb
    · have hno' : ¬ ∀ x ∈ l, ∃ b, f x = .ok b := by
        intro hok
        refine hno ?_
        intro x hx
        rcases List.mem_cons.mp hx with rfl | hx
        · exact ⟨b, hb⟩
        · exact hok x hx
      unfold mapE
      rw [hb, ih (fun x hx => hall x (List.mem_cons_of_mem a hx)) hno']
    · unfold mapE
      rw [hb]

theorem scale_ring_num_ok (r : List (List PyNum)) (cx cy s : Frac)
    (h : ∀ c ∈ r, 2 ≤ c.length) :
    ∃ out, _scale_ring_about_xy_centroid (r.map embedNumCoord) cx cy s = .ok out := by
  obtain ⟨out, hm⟩ := mapE_ok_of_forall (f := _scale_coord cx cy s) (by
    intro a ha
    obtain ⟨c, hc, rfl⟩ := List.mem_map.mp ha
    exact scale_coord_num_ok cx cy s c (h c hc))
  unfold _scale_ring_about_xy_centroid
  rw [hm]
  repeat' split
  all_goals first
  | exact ⟨_, rfl⟩
  | simp_all

theorem scale_ring_num_err (r : List (List PyNum)) (cx cy s : Frac)
    (h : ¬ ∀ c ∈ r, 2 ≤ c.length) :
    _scale_ring_about_xy_centroid (r.map embedNumCoord) cx cy s =
      .error (.invalidGeometry "Invalid coordinate; expected at least [x, y]") := by
  have hm : mapE (_scale_coord cx cy s) (r.map embedNumCoord) =
      .error (.invalidGeometry "Invalid coordinate; expected at least [x, y]") := by
    refine mapE_error_uniform ?_ ?_
    · intro a ha
      obtain ⟨c, hc, rfl⟩ := List.mem_map.mp ha
      by_cases h2 : 2 ≤ c.length
      · exact Or.inl (scale_coord_num_ok cx cy s c h2)
      · exact Or.inr (scale_coord_num_err cx cy s c (not_le.mp h2))
    · intro hok
      refine h ?_
      intro c hc
      by_contra h2
      obtain ⟨v, hv⟩ := hok (embedNumCoord c) (List.mem_map_of_mem _ hc)
      rw [scale_coord_num_err cx cy s c (not_le.mp h2)] at hv
      exact absurd hv (by simp)
  unfold _scale_ring_about_xy_centroid
  rw [hm]

theorem centroid_step1 (c : List PyNum) (h2 : 2 ≤ c.length) :
    (do
      let x ← pyGet (embedNumCoord c) 0
      let y ← pyGet (embedNumCoord c) 1
      pure (x, y) : Except GeoError (PyVal × PyVal)) =
      .ok (PyVal.num (c.getD 0 (.int 0)), PyVal.num (c.getD 1 (.int 0))) := by
  have h0 : 0 < c.length := by omega
  have h1 : 1 < c.length := by omega
  rw [pyGet_numCoord c 0 h0, pyGet_numCoord c 1 h1]
  simp [bind, Except.bind, pure, Except.pure, List.getD_eq_getElem?_getD,
    List.getElem?_eq_getElem h0, List.getElem?_eq_getElem h1, List.get_eq_getElem]

theorem centroid_num_ok (outer : List (List PyNum)) (h3 : 3 ≤ outer.length)
    (h2 : ∀ c ∈ outer, 2 ≤ c.length) :
    ∃ cx cy, _outer_ring_centroid_xy (outer.map embedNumCoord) = .ok (cx, cy) := by
  have hm1 : mapE (fun p => do
        let x ← pyGet p 0
        let y ← pyGet p 1
        pure (x, y)) (outer.map embedNumCoord) =
      .ok (outer.map fun c =>
        (PyVal.num (c.getD 0 (.int 0)), PyVal.num (c.getD 1 (.int 0)))) :=
    mapE_comp_map_ok (fun c hc => centroid_step1 c (h2 c hc))
  have hm2 : mapE (fun xy => do
        let x ← asNum xy.1
        let y ← asNum xy.2
        pure (x, y))
      (outer.map fun c =>
        (PyVal.num (c.getD 0 (.int 0)), PyVal.num (c.getD 1 (.int 0)))) =
      .ok (outer.map fun c =>
        ((c.getD 0 (.int 0)).toFrac, (c.getD 1 (.int 0)).toFrac)) :=
    mapE_comp_map_ok (fun c _ => rfl)
  unfold _outer_ring_centroid_xy
  rw [List.length_map, if_neg (by omega : ¬ outer.length < 3)]
  rw [hm1]
  dsimp only
  rw [hm2]
  dsimp only
  split
  · exact ⟨_, _, rfl⟩
  · exact ⟨_, _, rfl⟩

theorem shrinkRingStep_num_ok (cx cy : Frac) (f : ℚ) (r : List (List PyNum))
    (h3 : 3 ≤ r.length) (h2 : ∀ c ∈ r, 2 ≤ c.length) :
    ∃ b, shrinkRingStep cx cy f (embedNumRing r) = .ok b := by
  obtain ⟨out, hout⟩ := scale_ring_num_ok r cx cy ((Frac.ofInt 1).div (Frac.ofRat f)) h2
  refine ⟨pv out, ?_⟩
  simp only [shrinkRingStep, embedNumRing, pv]
  rw [PyList.length_ofList, List.length_map, if_neg (by omega : ¬ r.length < 3),
    PyList.toList_ofList, hout]

theorem shrinkRingStep_num_err (cx cy : Frac) (f : ℚ) (r : List (List PyNum))
    (h : ¬ (3 ≤ r.length ∧ ∀ c ∈ r, 2 ≤ c.length)) :
    ∃ m, shrinkRingStep cx cy f (embedNumRing r) = .error (.invalidGeometry m) := by
  by_cases h3 : 3 ≤ r.length
  · have h2 : ¬ ∀ c ∈ r, 2 ≤ c.length := fun hh => h ⟨h3, hh⟩
    refine ⟨"Invalid coordinate; expected at least [x, y]", ?_⟩
    simp only [shrinkRingStep, embedNumRing, pv]
    rw [PyList.length_ofList, List.length_map, if_neg (by omega : ¬ r.length < 3),
      PyList.toList_ofList,
      scale_ring_num_err r cx cy ((Frac.ofInt 1).div (Frac.ofRat f)) h2]
  · refine ⟨"Each ring must be a list of at least 3 coordinates", ?_⟩
    simp only [shrinkRingStep, embedNumRing, pv]
    rw [PyList.length_ofList, List.length_map, if_pos (by omega : r.length < 3)]

theorem shrink_reduce (outer : List (List PyNum)) (Rt : List (List (List PyNum)))
    (f : ℚ) (hf : 0 < f) (h3 : 3 ≤ outer.length) (cx cy : Frac)
    (hcent : _outer_ring_centroid_xy (outer.map embedNumCoord) = .ok (cx, cy)) :
    _shrink_polygon_rings (embedNumRings (outer :: Rt)) f =
      mapE (shrinkRingStep cx cy f) ((outer :: Rt).map embedNumRing) := by
  have h1 : embedNumRings (outer :: Rt) =
      PyVal.list (PyList.cons (embedNumRing outer) (PyList.ofList (Rt.map embedNumRing))) :=
    rfl
  rw [h1]
  simp only [_shrink_polygon_rings]
  rw [if_neg (not_le.mpr hf)]
  have h2 : embedNumRing outer = PyVal.list (PyList.ofList (outer.map embedNumCoord)) := rfl
  rw [h2]
  dsimp only
  rw [PyList.length_ofList, List.length_map, if_neg (by omega : ¬ outer.length < 3),
    PyList.toList_ofList, hcent]
  have hlist : (PyList.cons (PyVal.list (PyList.ofList (outer.map embedNumCoord)))
      (PyList.ofList (Rt.map embedNumRing))).toList =
      (PyVal.list (PyList.ofList (outer.map embedNumCoord))) :: Rt.map embedNumRing := by
    simp [PyList.toList, PyList.toList_ofList]
  rw [hlist]
  rw [show ((outer :: Rt).map embedNumRing) =
    (PyVal.list (PyList.ofList (outer.map embedNumCoord))) :: Rt.map embedNumRing from rfl]
  rfl

/-- C8 (amended): with a positive shrink factor, on numeric ring data the
converter's shrink stage fails with `InvalidGeometry` when the outer ring has
fewer than 3 coordinates; and when the outer ring has at least 3 coordinates,
each with at least 2 components, it fails with `InvalidGeometry` exactly when
some ring has fewer than 3 coordinates or some coordinate has fewer than 2
components.  (A coordinate with fewer than 2 components in the *outer* ring
instead raises an uncaught `IndexError` from the centroid computation.) -/
theorem claim_C8_amended (R : List (List (List PyNum))) (f : ℚ) (hf : 0 < f)
    (outer : List (List PyNum)) (hhead : R.head? = some outer) :
    (outer.length < 3 →
      _shrink_polygon_rings (embedNumRings R) f =
        .error (.invalidGeometry "Outer ring must be a list of at least 3 coordinates")) ∧
    (3 ≤ outer.length → (∀ c ∈ outer, 2 ≤ c.length) →
      ((∃ m, _shrink_polygon_rings (embedNumRings R) f = .error (.invalidGeometry m)) ↔
        ¬ ∀ ring ∈ R, 3 ≤ ring.length ∧ ∀ c ∈ ring, 2 ≤ c.length)) := by
  rcases R with _ | ⟨outer', Rt⟩
  · simp at hhead
  injection hhead with hh
  symm at hh
  subst hh
  constructor
  · intro hlt
    have h1 : embedNumRings (outer :: Rt) =
        PyVal.list (PyList.cons (embedNumRing outer)
          (PyList.ofList (Rt.map embedNumRing))) := rfl
    rw [h1]
    simp only [_shrink_polygon_rings]
    rw [if_neg (not_le.mpr hf)]
    have h2 : embedNumRing outer =
        PyVal.list (PyList.ofList (outer.map embedNumCoord)) := rfl
    rw [h2]
    dsimp only
    rw [PyList.length_ofList, List.length_map, if_pos hlt]
  · intro h3 h2
    obtain ⟨cx, cy, hcent⟩ := centroid_num_ok outer h3 h2
    rw [shrink_reduce outer Rt f hf h3 cx cy hcent]
    constructor
    · rintro ⟨m, hm⟩ hgood
      obtain ⟨out, hok⟩ := mapE_ok_of_forall (f := shrinkRingStep cx cy f) (by
        intro a ha
        obtain ⟨r, hr, rfl⟩ := List.mem_map.mp ha
        exact shrinkRingStep_num_ok cx cy f r (hgood r hr).1 (hgood r hr).2)
      rw [hok] at hm
      exact absurd hm (by simp)
    · intro hbad
      rcases hres : mapE (shrinkRingStep cx cy f) ((outer :: Rt).map embedNumRing)
        with e | out
      · obtain ⟨a, ha, hae⟩ := mapE_error_mem hres
        obtain ⟨r, hr, rfl⟩ := List.mem_map.mp ha
        by_cases hg : 3 ≤ r.length ∧ ∀ c ∈ r, 2 ≤ c.length
        · obtain ⟨b, hb⟩ := shrinkRingStep_num_ok cx cy f r hg.1 hg.2
          rw [hb] at hae
          exact absurd hae (by simp)
        · obtain ⟨m, hm⟩ := shrinkRingStep_num_err cx cy f r hg
          rw [hm] at hae
          injection hae with he
          exact ⟨m, by rw [← he]⟩
      · exfalso
        refine hbad ?_
        intro ring hring
        have hmem := mapE_ok_mem hres (embedNumRing ring) (List.mem_map_of_mem _ hring)
        by_cases hg : 3 ≤ ring.length ∧ ∀ c ∈ ring, 2 ≤ c.length
        · exact hg
        · obtain ⟨m, hm⟩ := shrinkRingStep_num_err cx cy f ring hg
          obtain ⟨b, hb⟩ := hmem
          rw [hm] at hb
          exact absurd hb (by simp)

/-- Witness for C8 (amended): a polygon whose outer ring is a valid triangle
and whose hole ring contains a one-component coordinate, with factor `2`. -/
theorem claim_C8_witness :
    (0 : ℚ) < 2 ∧ ringsC8.head? = some ringsC8.headI ∧
    ((ringsC8.headI.length < 3 →
      _shrink_polygon_rings (embedNumRings ringsC8) 2 =
        .error (.invalidGeometry "Outer ring must be a list of at least 3 coordinates")) ∧
    (3 ≤ ringsC8.headI.length → (∀ c ∈ ringsC8.headI, 2 ≤ c.length) →
      ((∃ m, _shrink_polygon_rings (embedNumRings ringsC8) 2 =
          .error (.invalidGeometry m)) ↔
        ¬ ∀ ring ∈ ringsC8, 3 ≤ ring.length ∧ ∀ c ∈ ring, 2 ≤ c.length))) :=
  ⟨by decide, rfl, claim_C8_amended ringsC8 2 (by decide) ringsC8.headI rfl⟩
